import Mathlib

/-!
Verification of the rotating-savings ("kutu"/ROSCA) round/payment/payout state
machine of this repository.

The data model is embedded from src/types.ts.  src/App.tsx contains two UI
revisions of the same business-logic handlers (an early revision and a later
one, concatenated in the packed source file); the engine handlers of the first
revision (handleSaveGroup, handleMarkAsPaid, handleMarkPayoutComplete,
handleStartNextRound — App.tsx lines 278-436) are embedded in namespace `R1`,
and those of the second revision (App.tsx lines 2374-2482) in namespace `R2`.

JavaScript peculiarities kept by the embedding:
* a missing array element (`xs[i]` out of range → `undefined`) and `null` are
  both represented by `none`;
* truthiness tests on a string-or-null field (`!round.payoutMemberId`) treat
  `null`/`undefined` and the empty string as falsy (`jsFalsy`);
* `Array.prototype.findIndex` returning `-1` is represented by
  `List.findIdx?` returning `none`;
* numbers occurring in the engine (round counters, lengths, amounts) are
  embedded as `Int`, so that `currentRound - 1` can be negative exactly as in
  the source;
* `showToast` calls are recorded as a returned list of `Toast` values in the
  `R1` handlers (translation key and severity); the `R2` handlers are embedded
  state-only, their toast calls being presentation-side effects that no claim
  about `R2` depends on.
-/

namespace Kutu

/-- Payment status, the string union `'Paid' | 'Unpaid'` of src/types.ts. -/
inductive PaymentStatus where
  | Paid
  | Unpaid
deriving Repr, DecidableEq

/-- Member record of src/types.ts. -/
structure Member where
  id : String
  name : String
  phone : Option String
deriving Repr, DecidableEq

/-- Payment record of src/types.ts. -/
structure Payment where
  memberId : String
  status : PaymentStatus
deriving Repr, DecidableEq

/-- Round record of src/types.ts. -/
structure Round where
  roundNumber : Int
  payoutMemberId : Option String
  payments : List Payment
  payoutCompleted : Bool
deriving Repr, DecidableEq

/-- Frequency union `'Daily' | 'Weekly' | 'Monthly'` of src/types.ts. -/
inductive Frequency where
  | Daily
  | Weekly
  | Monthly
deriving Repr, DecidableEq

/-- Group status union `'Pending' | 'Active' | 'Completed'` of src/types.ts. -/
inductive GroupStatus where
  | Pending
  | Active
  | Completed
deriving Repr, DecidableEq

/-- Group record of src/types.ts. -/
structure Group where
  id : String
  name : String
  contributionAmount : Int
  payoutFrequency : Frequency
  paymentFrequency : Frequency
  members : List Member
  payoutOrder : List String
  currentRound : Int
  status : GroupStatus
  rounds : List Round
deriving Repr, DecidableEq

/-- A showToast call: translation key and severity string. -/
structure Toast where
  message : String
  severity : String
deriving Repr, DecidableEq

/-- JavaScript truthiness of a string-or-null field: `null`, `undefined` and
the empty string are falsy. -/
def jsFalsy : Option String → Bool
  | none => true
  | some s => s == ""

/-- JavaScript array indexing `xs[i]` with a possibly negative `Int` index:
out-of-range access yields `undefined`, embedded as `none`. -/
def idxGet (xs : List String) (i : Int) : Option String :=
  if 0 ≤ i then xs[i.toNat]? else none

/-- The fresh all-Unpaid payment list `members.map(m => ({ memberId: m.id,
status: 'Unpaid' }))` used by both revisions when creating a round. -/
def unpaidPayments (members : List Member) : List Payment :=
  members.map (fun m => { memberId := m.id, status := PaymentStatus.Unpaid })

/-- The JS optional chain `round?.payoutCompleted` coerced to a boolean: a
missing round gives `undefined`, which is falsy. -/
def optPayoutCompleted : Option Round → Bool
  | some r => r.payoutCompleted
  | none => false

/-- The JS optional chain `round?.payments.every(p => p.status === 'Paid')`
coerced to a boolean: a missing round gives `undefined`, which is falsy. -/
def optAllPaid : Option Round → Bool
  | some r => r.payments.all (fun p => p.status == PaymentStatus.Paid)
  | none => false

@[simp]
theorem optPayoutCompleted_some (r : Round) :
    optPayoutCompleted (some r) = r.payoutCompleted := rfl

@[simp]
theorem optPayoutCompleted_none : optPayoutCompleted none = false := rfl

@[simp]
theorem optAllPaid_some (r : Round) :
    optAllPaid (some r) = r.payments.all (fun p => p.status == PaymentStatus.Paid) := rfl

@[simp]
theorem optAllPaid_none : optAllPaid none = false := rfl

/-- The group-form payload (`Omit<Group, 'id' | 'currentRound' | 'status' |
'rounds'>`) passed to handleSaveGroup by the GroupForm component. -/
structure GroupFormData where
  name : String
  contributionAmount : Int
  payoutFrequency : Frequency
  paymentFrequency : Frequency
  members : List Member
  payoutOrder : List String
deriving Repr, DecidableEq

/-- The JS spread `{ ...g, ...groupData }`: the form fields overwrite the
corresponding Group fields; `id`, `currentRound`, `status` and `rounds` are
kept from `g` because `groupData` omits them. -/
def applyFormData (g : Group) (d : GroupFormData) : Group :=
  { g with
    name := d.name
    contributionAmount := d.contributionAmount
    payoutFrequency := d.payoutFrequency
    paymentFrequency := d.paymentFrequency
    members := d.members
    payoutOrder := d.payoutOrder }

/-- The freshly created Group built by the create branch of handleSaveGroup in
both revisions (`currentRound: 1`, `status: 'Pending'`, one all-Unpaid round).
The time-stamp-based id is taken as the parameter `freshId`. -/
def newGroupFromForm (freshId : String) (d : GroupFormData) : Group :=
  { id := freshId
    name := d.name
    contributionAmount := d.contributionAmount
    payoutFrequency := d.payoutFrequency
    paymentFrequency := d.paymentFrequency
    members := d.members
    payoutOrder := d.payoutOrder
    currentRound := 1
    status := GroupStatus.Pending
    rounds := [{ roundNumber := 1
                 payoutMemberId := none
                 payments := unpaidPayments d.members
                 payoutCompleted := false }] }

namespace R1

/-- Per-group core of handleMarkAsPaid (App.tsx lines 339-360, first
revision): find the round whose roundNumber equals currentRound, find the
member's payment, set it to Paid; if afterwards every payment is Paid and
`!round.payoutMemberId`, assign `payoutOrder[currentRound - 1]` as the payout
recipient.  `none` models the early `return prevGroups` exits when the round
or the payment is not found; the returned Bool records whether the recipient
assignment (and its toast) fired. -/
def markAsPaidGroup (group : Group) (memberId : String) : Option (Group × Bool) :=
  match group.rounds.findIdx? (fun r => r.roundNumber == group.currentRound) with
  | none => none
  | some currentRoundIndex =>
    match group.rounds[currentRoundIndex]? with
    | none => none
    | some round =>
      match round.payments.findIdx? (fun p => p.memberId == memberId) with
      | none => none
      | some paymentIndex =>
        match round.payments[paymentIndex]? with
        | none => none
        | some payment =>
          let payments1 := round.payments.set paymentIndex
            { payment with status := PaymentStatus.Paid }
          let allPaid := payments1.all (fun p => p.status == PaymentStatus.Paid)
          let assign := allPaid && jsFalsy round.payoutMemberId
          let round1 :=
            if assign then
              { round with
                payments := payments1
                payoutMemberId := idxGet group.payoutOrder (group.currentRound - 1) }
            else
              { round with payments := payments1 }
          some ({ group with rounds := group.rounds.set currentRoundIndex round1 }, assign)

/-- handleMarkAsPaid of the first revision (App.tsx lines 333-369): locate the
group by id inside the state list, apply `markAsPaidGroup`, write the updated
group back at the same index; any failed lookup returns the previous state
unchanged with no toast. -/
def handleMarkAsPaid (prevGroups : List Group) (groupId memberId : String) :
    List Group × List Toast :=
  match prevGroups.findIdx? (fun g => g.id == groupId) with
  | none => (prevGroups, [])
  | some groupIndex =>
    match prevGroups[groupIndex]? with
    | none => (prevGroups, [])
    | some group =>
      match markAsPaidGroup group memberId with
      | none => (prevGroups, [])
      | some (group1, assign) =>
        (prevGroups.set groupIndex group1,
          (if assign then
            [{ message := "toastAllPaidPayoutReady", severity := "success" }]
          else []) ++
            [{ message := "toastPaymentUpdated", severity := "success" }])

/-- Outcome of the per-group core of handleMarkPayoutComplete: the current
round may be missing (silent no-op), the recipient may be falsy (error toast,
no-op), or the round is completed and the group becomes Active. -/
inductive PayoutStepResult where
  | noRound
  | notEligible
  | done (g : Group)
deriving Repr, DecidableEq

/-- The index-then-element lookup `rounds.findIndex(r => r.roundNumber ===
currentRound)` followed by `rounds[i]`, shared by the first revision's
handlers. -/
def findCurrentRound (g : Group) : Option (Nat × Round) :=
  match g.rounds.findIdx? (fun r => r.roundNumber == g.currentRound) with
  | none => none
  | some currentRoundIndex =>
    match g.rounds[currentRoundIndex]? with
    | none => none
    | some round => some (currentRoundIndex, round)

/-- Per-group core of handleMarkPayoutComplete (App.tsx lines 376-394, first
revision): requires a current round with a truthy payoutMemberId, then sets
`payoutCompleted := true` on it and `status := 'Active'` on the group. -/
def markPayoutCompleteGroup (group : Group) : PayoutStepResult :=
  match findCurrentRound group with
  | none => PayoutStepResult.noRound
  | some jr =>
    if jsFalsy jr.2.payoutMemberId then
      PayoutStepResult.notEligible
    else
      PayoutStepResult.done
        { group with
          status := GroupStatus.Active
          rounds := group.rounds.set jr.1
            { jr.2 with payoutCompleted := true } }

/-- handleMarkPayoutComplete of the first revision (App.tsx lines 371-400). -/
def handleMarkPayoutComplete (prevGroups : List Group) (groupId : String) :
    List Group × List Toast :=
  match prevGroups.findIdx? (fun g => g.id == groupId) with
  | none => (prevGroups, [])
  | some groupIndex =>
    match prevGroups[groupIndex]? with
    | none => (prevGroups, [])
    | some group =>
      match markPayoutCompleteGroup group with
      | PayoutStepResult.noRound => (prevGroups, [])
      | PayoutStepResult.notEligible =>
        (prevGroups, [{ message := "toastAllMustPay", severity := "error" }])
      | PayoutStepResult.done group1 =>
        (prevGroups.set groupIndex group1,
          [{ message := "toastPayoutComplete", severity := "success" }])

/-- Outcome of the per-group core of handleStartNextRound: blocked by the
payout-completion guard (error toast, no-op), advanced to a fresh next round
(success toast), or marked Completed (no toast). -/
inductive NextRoundResult where
  | blocked
  | advanced (g : Group)
  | completed (g : Group)
deriving Repr, DecidableEq

/-- Per-group core of handleStartNextRound (App.tsx lines 407-428, first
revision): `!currentRound?.payoutCompleted` blocks (also when the current
round is missing); otherwise if `currentRound < members.length` a fresh
all-Unpaid round `currentRound + 1` is appended and currentRound advanced,
else `status := 'Completed'` with no new round. -/
def startNextRoundGroup (group : Group) : NextRoundResult :=
  if !optPayoutCompleted
      (group.rounds.find? (fun r => r.roundNumber == group.currentRound)) then
    NextRoundResult.blocked
  else if group.currentRound < (group.members.length : Int) then
    let nextRoundNumber := group.currentRound + 1
    NextRoundResult.advanced
      { group with
        currentRound := nextRoundNumber
        rounds := group.rounds ++
          [{ roundNumber := nextRoundNumber
             payoutMemberId := none
             payments := unpaidPayments group.members
             payoutCompleted := false }] }
  else
    NextRoundResult.completed { group with status := GroupStatus.Completed }

/-- handleStartNextRound of the first revision (App.tsx lines 402-436). -/
def handleStartNextRound (prevGroups : List Group) (groupId : String) :
    List Group × List Toast :=
  match prevGroups.findIdx? (fun g => g.id == groupId) with
  | none => (prevGroups, [])
  | some groupIndex =>
    match prevGroups[groupIndex]? with
    | none => (prevGroups, [])
    | some group =>
      match startNextRoundGroup group with
      | NextRoundResult.blocked =>
        (prevGroups, [{ message := "toastPayoutMustBeCompleted", severity := "error" }])
      | NextRoundResult.advanced group1 =>
        (prevGroups.set groupIndex group1,
          [{ message := "toastRoundStarted", severity := "success" }])
      | NextRoundResult.completed group1 =>
        (prevGroups.set groupIndex group1, [])

/-- handleSaveGroup of the first revision (App.tsx lines 278-300): with a
`groupToEdit` it maps `g.id === groupToEdit.id` entries to
`{ ...groupToEdit, ...groupData }` (so `currentRound`, `status` and `rounds`
of the edited group survive); without one it appends a fresh Pending
round-1 group. -/
def handleSaveGroup (prevGroups : List Group) (groupToEdit : Option Group)
    (groupData : GroupFormData) (freshId : String) : List Group × List Toast :=
  match groupToEdit with
  | some ge =>
    (prevGroups.map (fun g => if g.id == ge.id then applyFormData ge groupData else g),
      [{ message := "toastGroupUpdated", severity := "success" }])
  | none =>
    (prevGroups ++ [newGroupFromForm freshId groupData],
      [{ message := "toastGroupAdded", severity := "success" }])

end R1

namespace R2

/-- Per-round body of the rounds map in the second revision's
handleMarkAsPaid (App.tsx lines 2414-2433): in the round whose roundNumber
equals currentRound, map the member's payment to Paid; if all payments are
then Paid and `!r.payoutMemberId`, also assign
`payoutOrder[currentRound - 1]`. -/
def markRound (g : Group) (memberId : String) (r : Round) : Round :=
  if r.roundNumber == g.currentRound then
    let updatedPayments := r.payments.map (fun p =>
      if p.memberId == memberId then { p with status := PaymentStatus.Paid } else p)
    let allNowPaid := updatedPayments.all (fun p => p.status == PaymentStatus.Paid)
    if allNowPaid && jsFalsy r.payoutMemberId then
      { r with
        payments := updatedPayments
        payoutMemberId := idxGet g.payoutOrder (g.currentRound - 1) }
    else
      { r with payments := updatedPayments }
  else r

/-- Per-group core of handleMarkAsPaid of the second revision (App.tsx lines
2413-2436). -/
def markAsPaidGroup (memberId : String) (g : Group) : Group :=
  { g with rounds := g.rounds.map (markRound g memberId) }

/-- handleMarkAsPaid of the second revision (App.tsx lines 2412-2438). -/
def handleMarkAsPaid (groups : List Group) (groupId memberId : String) : List Group :=
  groups.map (fun g => if g.id == groupId then markAsPaidGroup memberId g else g)

/-- Per-group core of handleMarkPayoutComplete of the second revision (App.tsx
lines 2442-2448): unconditionally sets `payoutCompleted := true` on the
current round (no payoutMemberId check) and `status := 'Active'`. -/
def markPayoutCompleteGroup (g : Group) : Group :=
  { g with
    status := GroupStatus.Active
    rounds := g.rounds.map (fun r =>
      if r.roundNumber == g.currentRound then { r with payoutCompleted := true } else r) }

/-- handleMarkPayoutComplete of the second revision (App.tsx lines
2440-2451). -/
def handleMarkPayoutComplete (groups : List Group) (groupId : String) : List Group :=
  groups.map (fun g => if g.id == groupId then markPayoutCompleteGroup g else g)

/-- Per-group core of handleStartNextRound of the second revision (App.tsx
lines 2455-2479): unlike the first revision it also requires every payment of
the current round to be Paid; then, if `nextRoundNumber > members.length`, it
sets `status := 'Completed'`, else appends the fresh next round. -/
def startNextRoundGroup (g : Group) : Group :=
  if !optAllPaid (g.rounds.find? (fun r => r.roundNumber == g.currentRound)) then g
  else if !optPayoutCompleted
      (g.rounds.find? (fun r => r.roundNumber == g.currentRound)) then g
  else
    let nextRoundNumber := g.currentRound + 1
    if (g.members.length : Int) < nextRoundNumber then
      { g with status := GroupStatus.Completed }
    else
      { g with
        currentRound := nextRoundNumber
        rounds := g.rounds ++
          [{ roundNumber := nextRoundNumber
             payoutMemberId := none
             payments := unpaidPayments g.members
             payoutCompleted := false }] }

/-- handleStartNextRound of the second revision (App.tsx lines 2453-2482). -/
def handleStartNextRound (groups : List Group) (groupId : String) : List Group :=
  groups.map (fun g => if g.id == groupId then startNextRoundGroup g else g)

/-- handleSaveGroup of the second revision (App.tsx lines 2374-2394): with a
`groupData.id` it maps matching entries to `{ ...g, ...groupData }` (again
keeping `currentRound`, `status`, `rounds` of `g`); without one it appends a
fresh Pending round-1 group. -/
def handleSaveGroup (groups : List Group) (groupDataId : Option String)
    (groupData : GroupFormData) (freshId : String) : List Group :=
  match groupDataId with
  | some i => groups.map (fun g => if g.id == i then applyFormData g groupData else g)
  | none => groups ++ [newGroupFromForm freshId groupData]

end R2

/-- The current round of a group: `rounds.find(r => r.roundNumber ===
g.currentRound)`, as both revisions look it up. -/
def currentRoundOf (g : Group) : Option Round :=
  g.rounds.find? (fun r => r.roundNumber == g.currentRound)

@[simp]
theorem currentRoundOf_def (g : Group) :
    currentRoundOf g = g.rounds.find? (fun r => r.roundNumber == g.currentRound) := rfl

section ListHelpers

variable {α : Type}

/-- A successful findIdx? yields an element at that index satisfying the
predicate. -/
theorem findIdx?_some_elem {l : List α} {p : α → Bool} {i : Nat}
    (h : l.findIdx? p = some i) : ∃ a, l[i]? = some a ∧ p a = true := by
  rcases List.findIdx?_eq_some_iff_getElem.mp h with ⟨hlt, hp, _⟩
  exact ⟨l[i], by simp [hlt], hp⟩

/-- Replacing the found element by another satisfying element does not move
the first found index. -/
theorem findIdx?_set_same {l : List α} {p : α → Bool} {i : Nat} {b : α}
    (h : l.findIdx? p = some i) (hb : p b = true) :
    (l.set i b).findIdx? p = some i := by
  rcases List.findIdx?_eq_some_iff_getElem.mp h with ⟨hlt, _, hmin⟩
  apply List.findIdx?_eq_some_iff_getElem.mpr
  refine ⟨by simpa using hlt, ?_, ?_⟩
  · simpa [List.getElem_set] using hb
  · intro j hji
    have hj : j < l.length := Nat.lt_trans hji hlt
    have : i ≠ j := Nat.ne_of_gt hji
    simpa [List.getElem_set, this] using hmin j hji

/-- Setting an index to the value already stored there is the identity. -/
theorem set_elem_self {l : List α} {i : Nat} {a : α} (h : l[i]? = some a) :
    l.set i a = l := by
  apply List.ext_getElem?
  intro n
  by_cases hn : i = n
  · subst hn
    rcases List.getElem?_eq_some_iff.mp h with ⟨hlt, _⟩
    rw [List.getElem?_set_self hlt, h]
  · rw [List.getElem?_set_ne hn]

/-- Mapping a function that fixes every element of a list is the identity. -/
theorem map_eq_self_of_fixes {l : List α} {f : α → α} (h : ∀ a ∈ l, f a = a) :
    l.map f = l := by
  induction l with
  | nil => rfl
  | cons x xs ih =>
    simp only [List.map_cons, List.cons.injEq]
    exact ⟨h x (List.mem_cons_self x xs), ih fun a ha => h a (List.mem_cons_of_mem x ha)⟩

/-- find? returns the element sitting at the index findIdx? returns. -/
theorem find?_eq_of_findIdx? {l : List α} {p : α → Bool} {i : Nat} {a : α}
    (h : l.findIdx? p = some i) (ha : l[i]? = some a) : l.find? p = some a := by
  induction l generalizing i with
  | nil => simp at h
  | cons x xs ih =>
    by_cases hx : p x
    · rw [List.findIdx?_cons, if_pos hx] at h
      cases h
      simp only [List.getElem?_cons_zero, Option.some.injEq] at ha
      subst ha
      exact List.find?_cons_of_pos xs hx
    · rw [List.findIdx?_cons, if_neg hx, List.findIdx?_succ] at h
      rcases Option.map_eq_some'.mp h with ⟨i0, hi0, rfl⟩
      rw [List.getElem?_cons_succ] at ha
      rw [List.find?_cons_of_neg xs (by simpa using hx)]
      exact ih hi0 ha

/-- If findIdx? fails, find? fails as well. -/
theorem find?_eq_none_of_findIdx? {l : List α} {p : α → Bool}
    (h : l.findIdx? p = none) : l.find? p = none := by
  rw [List.find?_eq_none]
  intro x hx
  have := List.findIdx?_eq_none_iff.mp h x hx
  simp [this]

/-- Mapping a roundNumber-preserving transformation commutes with find?. -/
theorem find?_map_pred {l : List α} {f : α → α} {p : α → Bool}
    (h : ∀ a ∈ l, p (f a) = p a) : (l.map f).find? p = (l.find? p).map f := by
  induction l with
  | nil => rfl
  | cons x xs ih =>
    by_cases hx : p x
    · rw [List.map_cons, List.find?_cons_of_pos _ (by rw [h x (List.mem_cons_self x xs)]; exact hx),
        List.find?_cons_of_pos _ hx, Option.map_some']
    · rw [List.map_cons, List.find?_cons_of_neg _ (by rw [h x (List.mem_cons_self x xs)]; exact hx),
        List.find?_cons_of_neg _ hx]
      exact ih fun a ha => h a (List.mem_cons_of_mem x ha)

end ListHelpers

/-- Every field of the group other than `rounds` survives a successful
markAsPaidGroup step. -/
theorem R1.markAsPaidGroup_fields {g g1 : Group} {mid : String} {b : Bool}
    (h : R1.markAsPaidGroup g mid = some (g1, b)) :
    g1.id = g.id ∧ g1.members = g.members ∧ g1.payoutOrder = g.payoutOrder ∧
    g1.currentRound = g.currentRound ∧ g1.status = g.status := by
  unfold R1.markAsPaidGroup at h
  split at h
  · simp at h
  split at h
  · simp at h
  split at h
  · simp at h
  split at h
  · simp at h
  simp only [Option.some.injEq, Prod.mk.injEq] at h
  rcases h with ⟨hg1, _⟩
  subst hg1
  simp

/-- Shape of the rounds list after a successful markAsPaidGroup step: exactly
the first round whose roundNumber equals currentRound is replaced; its
roundNumber and payoutCompleted flag are untouched, and its payoutMemberId is
either untouched or (when it was falsy) overwritten with
`payoutOrder[currentRound - 1]`.  The matched round has at least one
payment. -/
theorem R1.markAsPaidGroup_rounds {g g1 : Group} {mid : String} {b : Bool}
    (h : R1.markAsPaidGroup g mid = some (g1, b)) :
    ∃ j r r1, g.rounds[j]? = some r ∧ r.roundNumber = g.currentRound ∧
      r.payments ≠ [] ∧ g1.rounds = g.rounds.set j r1 ∧
      r1.roundNumber = r.roundNumber ∧ r1.payoutCompleted = r.payoutCompleted ∧
      (r1.payoutMemberId = r.payoutMemberId ∨
        (jsFalsy r.payoutMemberId = true ∧
          r1.payoutMemberId = idxGet g.payoutOrder (g.currentRound - 1))) := by
  unfold R1.markAsPaidGroup at h
  split at h
  · simp at h
  next j hj =>
  split at h
  · simp at h
  next round hr =>
  split at h
  · simp at h
  next k hk =>
  split at h
  · simp at h
  next payment hp =>
  simp only [Option.some.injEq, Prod.mk.injEq] at h
  rcases h with ⟨hg1, hb⟩
  have hnum : round.roundNumber = g.currentRound := by
    rcases findIdx?_some_elem hj with ⟨a, ha, hpa⟩
    rw [hr] at ha
    cases ha
    simpa using hpa
  have hne : round.payments ≠ [] := by
    intro hnil
    rw [hnil] at hp
    simp at hp
  subst hg1
  by_cases hassign :
      ((round.payments.set k { payment with status := PaymentStatus.Paid }).all
          (fun p => p.status == PaymentStatus.Paid) &&
        jsFalsy round.payoutMemberId) = true
  · refine ⟨j, round,
      { roundNumber := round.roundNumber
        payoutMemberId := idxGet g.payoutOrder (g.currentRound - 1)
        payments := round.payments.set k { payment with status := PaymentStatus.Paid }
        payoutCompleted := round.payoutCompleted },
      hr, hnum, hne, ?_, rfl, rfl,
      Or.inr ⟨((Bool.and_eq_true _ _).mp hassign).2, rfl⟩⟩
    simp [hassign]
  · refine ⟨j, round,
      { roundNumber := round.roundNumber
        payoutMemberId := round.payoutMemberId
        payments := round.payments.set k { payment with status := PaymentStatus.Paid }
        payoutCompleted := round.payoutCompleted },
      hr, hnum, hne, ?_, rfl, rfl, Or.inl rfl⟩
    simp [hassign]

/-- The round located by `rounds.findIndex(r => r.roundNumber ===
currentRound)` carries that round number. -/
theorem roundNumber_of_found {g : Group} {j : Nat} {round : Round}
    (hj : g.rounds.findIdx? (fun r => r.roundNumber == g.currentRound) = some j)
    (hr : g.rounds[j]? = some round) : round.roundNumber = g.currentRound := by
  rcases findIdx?_some_elem hj with ⟨a, ha, hpa⟩
  rw [hr] at ha
  cases ha
  simpa using hpa

/-- A truthy optional-chained payoutCompleted means the round was found and is
completed. -/
theorem optPayoutCompleted_true {o : Option Round}
    (h : optPayoutCompleted o = true) : ∃ r, o = some r ∧ r.payoutCompleted = true := by
  cases o with
  | none => simp at h
  | some r => exact ⟨r, rfl, h⟩

/-- A successful findCurrentRound lookup records the found index and the
matching round number. -/
theorem R1.findCurrentRound_some {g : Group} {j : Nat} {round : Round}
    (h : R1.findCurrentRound g = some (j, round)) :
    g.rounds.findIdx? (fun r => r.roundNumber == g.currentRound) = some j ∧
    g.rounds[j]? = some round ∧ round.roundNumber = g.currentRound := by
  unfold R1.findCurrentRound at h
  split at h
  · simp at h
  next j0 hj =>
  split at h
  · simp at h
  next round0 hr =>
  simp only [Option.some.injEq, Prod.mk.injEq] at h
  rcases h with ⟨rfl, rfl⟩
  exact ⟨hj, hr, roundNumber_of_found hj hr⟩

/-- A failed round-number lookup makes findCurrentRound fail. -/
theorem R1.findCurrentRound_eq_none {g : Group}
    (h : g.rounds.findIdx? (fun r => r.roundNumber == g.currentRound) = none) :
    R1.findCurrentRound g = none := by
  unfold R1.findCurrentRound
  rw [h]

/-- Characterization of a successful markPayoutCompleteGroup step: the found
current round had a truthy payoutMemberId; it gets `payoutCompleted := true`
and the group becomes Active, all other fields untouched. -/
theorem R1.markPayoutCompleteGroup_done {g g1 : Group}
    (h : R1.markPayoutCompleteGroup g = R1.PayoutStepResult.done g1) :
    ∃ (j : Nat) (round : Round),
      g.rounds[j]? = some round ∧ round.roundNumber = g.currentRound ∧
      jsFalsy round.payoutMemberId = false ∧
      g1 = { g with
             status := GroupStatus.Active
             rounds := g.rounds.set j { round with payoutCompleted := true } } := by
  unfold R1.markPayoutCompleteGroup at h
  split at h
  · simp at h
  next jr hfc =>
  rcases jr with ⟨j, round⟩
  rcases R1.findCurrentRound_some hfc with ⟨_, hr, hnum⟩
  split at h
  · simp at h
  next hfalsy =>
  simp only [R1.PayoutStepResult.done.injEq] at h
  exact ⟨j, round, hr, hnum, by simpa using hfalsy, h.symm⟩

/-- A blocked markPayoutCompleteGroup (notEligible) leaves a falsy
payoutMemberId witness on the found round. -/
theorem R1.markPayoutCompleteGroup_notEligible {g : Group}
    (h : R1.markPayoutCompleteGroup g = R1.PayoutStepResult.notEligible) :
    ∃ (j : Nat) (round : Round),
      g.rounds[j]? = some round ∧ round.roundNumber = g.currentRound ∧
      jsFalsy round.payoutMemberId = true := by
  unfold R1.markPayoutCompleteGroup at h
  split at h
  · simp at h
  next jr hfc =>
  rcases jr with ⟨j, round⟩
  rcases R1.findCurrentRound_some hfc with ⟨_, hr, hnum⟩
  split at h
  next hfalsy => exact ⟨j, round, hr, hnum, hfalsy⟩
  · simp at h

/-- Characterization of an advanced startNextRoundGroup step. -/
theorem R1.startNextRoundGroup_advanced {g g1 : Group}
    (h : R1.startNextRoundGroup g = R1.NextRoundResult.advanced g1) :
    (∃ r, g.rounds.find? (fun r => r.roundNumber == g.currentRound) = some r ∧
        r.payoutCompleted = true) ∧
    g.currentRound < (g.members.length : Int) ∧
    g1 = { g with
           currentRound := g.currentRound + 1
           rounds := g.rounds ++
             [{ roundNumber := g.currentRound + 1
                payoutMemberId := none
                payments := unpaidPayments g.members
                payoutCompleted := false }] } := by
  unfold R1.startNextRoundGroup at h
  split at h
  · simp at h
  next hguard =>
  have hguard2 : optPayoutCompleted
      (g.rounds.find? (fun r => r.roundNumber == g.currentRound)) = true := by
    simpa using hguard
  split at h
  next hlt =>
    simp only [R1.NextRoundResult.advanced.injEq] at h
    exact ⟨optPayoutCompleted_true hguard2, hlt, h.symm⟩
  · simp at h

/-- Characterization of a completing startNextRoundGroup step: the guard
passed, currentRound has reached members.length, and only the status
changes. -/
theorem R1.startNextRoundGroup_completed {g g1 : Group}
    (h : R1.startNextRoundGroup g = R1.NextRoundResult.completed g1) :
    (∃ r, g.rounds.find? (fun r => r.roundNumber == g.currentRound) = some r ∧
        r.payoutCompleted = true) ∧
    ¬ g.currentRound < (g.members.length : Int) ∧
    g1 = { g with status := GroupStatus.Completed } := by
  unfold R1.startNextRoundGroup at h
  split at h
  · simp at h
  next hguard =>
  have hguard2 : optPayoutCompleted
      (g.rounds.find? (fun r => r.roundNumber == g.currentRound)) = true := by
    simpa using hguard
  split at h
  · simp at h
  next hge =>
  simp only [R1.NextRoundResult.completed.injEq] at h
  exact ⟨optPayoutCompleted_true hguard2, hge, h.symm⟩

/-- markRound never changes a round's number. -/
theorem R2.markRound_roundNumber (g : Group) (mid : String) (a : Round) :
    (R2.markRound g mid a).roundNumber = a.roundNumber := by
  unfold R2.markRound
  by_cases hA : (a.roundNumber == g.currentRound) = true
  · simp only [if_pos hA, apply_ite Round.roundNumber, ite_self]
  · simp only [if_neg hA]

/-- On the matching round, markRound maps the member's payment to Paid and
keeps the payoutCompleted flag. -/
theorem R2.markRound_of_match {g : Group} {mid : String} {a : Round}
    (hA : (a.roundNumber == g.currentRound) = true) :
    (R2.markRound g mid a).payments = a.payments.map (fun q =>
      if q.memberId == mid then { q with status := PaymentStatus.Paid } else q) ∧
    (R2.markRound g mid a).payoutCompleted = a.payoutCompleted := by
  unfold R2.markRound
  rw [if_pos hA]
  constructor
  · simp only [apply_ite Round.payments, ite_self]
  · simp only [apply_ite Round.payoutCompleted, ite_self]

/-- On a non-matching round, markRound is the identity. -/
theorem R2.markRound_of_ne {g : Group} {mid : String} {a : Round}
    (hA : ¬ (a.roundNumber == g.currentRound) = true) :
    R2.markRound g mid a = a := by
  unfold R2.markRound
  rw [if_neg hA]

/-- Unknown groupId: handleMarkAsPaid returns the previous state, no toast. -/
theorem R1.handleMarkAsPaid_group_not_found {gs : List Group} {gid mid : String}
    (h : gs.findIdx? (fun g => g.id == gid) = none) :
    R1.handleMarkAsPaid gs gid mid = (gs, []) := by
  unfold R1.handleMarkAsPaid
  rw [h]

/-- Unreachable index-out-of-range branch of handleMarkAsPaid. -/
theorem R1.handleMarkAsPaid_get_none {gs : List Group} {gid mid : String} {i : Nat}
    (hi : gs.findIdx? (fun g => g.id == gid) = some i) (hg : gs[i]? = none) :
    R1.handleMarkAsPaid gs gid mid = (gs, []) := by
  unfold R1.handleMarkAsPaid
  simp only [hi, hg]

/-- Failed round/payment lookup: handleMarkAsPaid returns the previous state,
no toast. -/
theorem R1.handleMarkAsPaid_core_none {gs : List Group} {gid mid : String} {i : Nat}
    {g : Group} (hi : gs.findIdx? (fun g => g.id == gid) = some i)
    (hg : gs[i]? = some g) (hm : R1.markAsPaidGroup g mid = none) :
    R1.handleMarkAsPaid gs gid mid = (gs, []) := by
  unfold R1.handleMarkAsPaid
  simp only [hi, hg, hm]

/-- Successful handleMarkAsPaid: the updated group replaces the old one at
its index, and the success toasts fire. -/
theorem R1.handleMarkAsPaid_core_some {gs : List Group} {gid mid : String} {i : Nat}
    {g g1 : Group} {b : Bool} (hi : gs.findIdx? (fun g => g.id == gid) = some i)
    (hg : gs[i]? = some g) (hm : R1.markAsPaidGroup g mid = some (g1, b)) :
    R1.handleMarkAsPaid gs gid mid =
      (gs.set i g1,
        (if b then [{ message := "toastAllPaidPayoutReady", severity := "success" }]
         else []) ++ [{ message := "toastPaymentUpdated", severity := "success" }]) := by
  unfold R1.handleMarkAsPaid
  simp only [hi, hg, hm]

/-- Every group in the output of handleMarkAsPaid is either an input group or
the markAsPaidGroup update of an input group. -/
theorem R1.handleMarkAsPaid_mem {gs : List Group} {gid mid : String} {g1 : Group}
    (h : g1 ∈ (R1.handleMarkAsPaid gs gid mid).1) :
    g1 ∈ gs ∨ ∃ g, g ∈ gs ∧ ∃ b, R1.markAsPaidGroup g mid = some (g1, b) := by
  cases hi : gs.findIdx? (fun g => g.id == gid) with
  | none =>
    rw [R1.handleMarkAsPaid_group_not_found hi] at h
    exact Or.inl h
  | some i =>
    cases hg : gs[i]? with
    | none =>
      rw [R1.handleMarkAsPaid_get_none hi hg] at h
      exact Or.inl h
    | some g =>
      cases hm : R1.markAsPaidGroup g mid with
      | none =>
        rw [R1.handleMarkAsPaid_core_none hi hg hm] at h
        exact Or.inl h
      | some p =>
        rcases p with ⟨ga, b⟩
        rw [R1.handleMarkAsPaid_core_some hi hg hm] at h
        rcases List.mem_or_eq_of_mem_set h with h1 | h1
        · exact Or.inl h1
        · subst h1
          exact Or.inr ⟨g, List.getElem?_mem hg, b, hm⟩

/-- Unknown groupId: handleMarkPayoutComplete returns the previous state. -/
theorem R1.handleMarkPayoutComplete_group_not_found {gs : List Group} {gid : String}
    (h : gs.findIdx? (fun g => g.id == gid) = none) :
    R1.handleMarkPayoutComplete gs gid = (gs, []) := by
  unfold R1.handleMarkPayoutComplete
  rw [h]

/-- Unreachable index-out-of-range branch of handleMarkPayoutComplete. -/
theorem R1.handleMarkPayoutComplete_get_none {gs : List Group} {gid : String} {i : Nat}
    (hi : gs.findIdx? (fun g => g.id == gid) = some i) (hg : gs[i]? = none) :
    R1.handleMarkPayoutComplete gs gid = (gs, []) := by
  unfold R1.handleMarkPayoutComplete
  simp only [hi, hg]

/-- Missing current round: handleMarkPayoutComplete returns the previous
state, no toast. -/
theorem R1.handleMarkPayoutComplete_noRound {gs : List Group} {gid : String} {i : Nat}
    {g : Group} (hi : gs.findIdx? (fun g => g.id == gid) = some i)
    (hg : gs[i]? = some g)
    (hm : R1.markPayoutCompleteGroup g = R1.PayoutStepResult.noRound) :
    R1.handleMarkPayoutComplete gs gid = (gs, []) := by
  unfold R1.handleMarkPayoutComplete
  simp only [hi, hg, hm]

/-- Falsy payoutMemberId: handleMarkPayoutComplete returns the previous state
with the error toast. -/
theorem R1.handleMarkPayoutComplete_notEligible_eq {gs : List Group} {gid : String}
    {i : Nat} {g : Group} (hi : gs.findIdx? (fun g => g.id == gid) = some i)
    (hg : gs[i]? = some g)
    (hm : R1.markPayoutCompleteGroup g = R1.PayoutStepResult.notEligible) :
    R1.handleMarkPayoutComplete gs gid =
      (gs, [{ message := "toastAllMustPay", severity := "error" }]) := by
  unfold R1.handleMarkPayoutComplete
  simp only [hi, hg, hm]

/-- Successful handleMarkPayoutComplete: the completed group replaces the old
one at its index with the success toast. -/
theorem R1.handleMarkPayoutComplete_done_eq {gs : List Group} {gid : String}
    {i : Nat} {g g1 : Group} (hi : gs.findIdx? (fun g => g.id == gid) = some i)
    (hg : gs[i]? = some g)
    (hm : R1.markPayoutCompleteGroup g = R1.PayoutStepResult.done g1) :
    R1.handleMarkPayoutComplete gs gid =
      (gs.set i g1, [{ message := "toastPayoutComplete", severity := "success" }]) := by
  unfold R1.handleMarkPayoutComplete
  simp only [hi, hg, hm]

/-- Every group in the output of handleMarkPayoutComplete is either an input
group or the done-result of markPayoutCompleteGroup on an input group. -/
theorem R1.handleMarkPayoutComplete_mem {gs : List Group} {gid : String} {g1 : Group}
    (h : g1 ∈ (R1.handleMarkPayoutComplete gs gid).1) :
    g1 ∈ gs ∨ ∃ g, g ∈ gs ∧
      R1.markPayoutCompleteGroup g = R1.PayoutStepResult.done g1 := by
  cases hi : gs.findIdx? (fun g => g.id == gid) with
  | none =>
    rw [R1.handleMarkPayoutComplete_group_not_found hi] at h
    exact Or.inl h
  | some i =>
    cases hg : gs[i]? with
    | none =>
      rw [R1.handleMarkPayoutComplete_get_none hi hg] at h
      exact Or.inl h
    | some g =>
      cases hm : R1.markPayoutCompleteGroup g with
      | noRound =>
        rw [R1.handleMarkPayoutComplete_noRound hi hg hm] at h
        exact Or.inl h
      | notEligible =>
        rw [R1.handleMarkPayoutComplete_notEligible_eq hi hg hm] at h
        exact Or.inl h
      | done ga =>
        rw [R1.handleMarkPayoutComplete_done_eq hi hg hm] at h
        rcases List.mem_or_eq_of_mem_set h with h1 | h1
        · exact Or.inl h1
        · subst h1
          exact Or.inr ⟨g, List.getElem?_mem hg, hm⟩

/-- Unknown groupId: handleStartNextRound returns the previous state. -/
theorem R1.handleStartNextRound_group_not_found {gs : List Group} {gid : String}
    (h : gs.findIdx? (fun g => g.id == gid) = none) :
    R1.handleStartNextRound gs gid = (gs, []) := by
  unfold R1.handleStartNextRound
  rw [h]

/-- Unreachable index-out-of-range branch of handleStartNextRound. -/
theorem R1.handleStartNextRound_get_none {gs : List Group} {gid : String} {i : Nat}
    (hi : gs.findIdx? (fun g => g.id == gid) = some i) (hg : gs[i]? = none) :
    R1.handleStartNextRound gs gid = (gs, []) := by
  unfold R1.handleStartNextRound
  simp only [hi, hg]

/-- Blocked handleStartNextRound: previous state with the error toast. -/
theorem R1.handleStartNextRound_blocked_eq {gs : List Group} {gid : String} {i : Nat}
    {g : Group} (hi : gs.findIdx? (fun g => g.id == gid) = some i)
    (hg : gs[i]? = some g)
    (hm : R1.startNextRoundGroup g = R1.NextRoundResult.blocked) :
    R1.handleStartNextRound gs gid =
      (gs, [{ message := "toastPayoutMustBeCompleted", severity := "error" }]) := by
  unfold R1.handleStartNextRound
  simp only [hi, hg, hm]

/-- Advancing handleStartNextRound: the advanced group replaces the old one
with the round-started toast. -/
theorem R1.handleStartNextRound_advanced_eq {gs : List Group} {gid : String} {i : Nat}
    {g g1 : Group} (hi : gs.findIdx? (fun g => g.id == gid) = some i)
    (hg : gs[i]? = some g)
    (hm : R1.startNextRoundGroup g = R1.NextRoundResult.advanced g1) :
    R1.handleStartNextRound gs gid =
      (gs.set i g1, [{ message := "toastRoundStarted", severity := "success" }]) := by
  unfold R1.handleStartNextRound
  simp only [hi, hg, hm]

/-- Completing handleStartNextRound: the completed group replaces the old one
and no toast fires. -/
theorem R1.handleStartNextRound_completed_eq {gs : List Group} {gid : String} {i : Nat}
    {g g1 : Group} (hi : gs.findIdx? (fun g => g.id == gid) = some i)
    (hg : gs[i]? = some g)
    (hm : R1.startNextRoundGroup g = R1.NextRoundResult.completed g1) :
    R1.handleStartNextRound gs gid = (gs.set i g1, []) := by
  unfold R1.handleStartNextRound
  simp only [hi, hg, hm]

/-- Every group in the output of handleStartNextRound is either an input
group or an advanced/completed result of startNextRoundGroup on an input
group. -/
theorem R1.handleStartNextRound_mem {gs : List Group} {gid : String} {g1 : Group}
    (h : g1 ∈ (R1.handleStartNextRound gs gid).1) :
    g1 ∈ gs ∨ ∃ g, g ∈ gs ∧
      (R1.startNextRoundGroup g = R1.NextRoundResult.advanced g1 ∨
        R1.startNextRoundGroup g = R1.NextRoundResult.completed g1) := by
  cases hi : gs.findIdx? (fun g => g.id == gid) with
  | none =>
    rw [R1.handleStartNextRound_group_not_found hi] at h
    exact Or.inl h
  | some i =>
    cases hg : gs[i]? with
    | none =>
      rw [R1.handleStartNextRound_get_none hi hg] at h
      exact Or.inl h
    | some g =>
      cases hm : R1.startNextRoundGroup g with
      | blocked =>
        rw [R1.handleStartNextRound_blocked_eq hi hg hm] at h
        exact Or.inl h
      | advanced ga =>
        rw [R1.handleStartNextRound_advanced_eq hi hg hm] at h
        rcases List.mem_or_eq_of_mem_set h with h1 | h1
        · exact Or.inl h1
        · subst h1
          exact Or.inr ⟨g, List.getElem?_mem hg, Or.inl hm⟩
      | completed ga =>
        rw [R1.handleStartNextRound_completed_eq hi hg hm] at h
        rcases List.mem_or_eq_of_mem_set h with h1 | h1
        · exact Or.inl h1
        · subst h1
          exact Or.inr ⟨g, List.getElem?_mem hg, Or.inr hm⟩

/-! Concrete sample data used by witnesses and counterexamples: a two-member
group as the create branch of handleSaveGroup builds it, and the states an
R1 run produces from it. -/

/-- Sample member one. -/
def mA : Member := { id := "m1", name := "Ana", phone := none }

/-- Sample member two. -/
def mB : Member := { id := "m2", name := "Bob", phone := none }

/-- Sample form payload: two members paying 100, payout order m1 then m2. -/
def dAB : GroupFormData :=
  { name := "G", contributionAmount := 100, payoutFrequency := Frequency.Monthly,
    paymentFrequency := Frequency.Monthly, members := [mA, mB],
    payoutOrder := ["m1", "m2"] }

/-- The freshly created two-member sample group. -/
def gAB : Group := newGroupFromForm "g1" dAB

/-- R1 run, step 1: member one pays in round 1. -/
def step1 : List Group := (R1.handleMarkAsPaid [gAB] "g1" "m1").1

/-- R1 run, step 2: member two pays; all paid, recipient m1 assigned. -/
def step2 : List Group := (R1.handleMarkAsPaid step1 "g1" "m2").1

/-- R1 run, step 3: round-1 payout completed, group Active. -/
def step3 : List Group := (R1.handleMarkPayoutComplete step2 "g1").1

/-- R1 run, step 4: advance to round 2. -/
def step4 : List Group := (R1.handleStartNextRound step3 "g1").1

/-- R1 run, step 5: member one pays in round 2. -/
def step5 : List Group := (R1.handleMarkAsPaid step4 "g1" "m1").1

/-- R1 run, step 6: member two pays; recipient m2 assigned. -/
def step6 : List Group := (R1.handleMarkAsPaid step5 "g1" "m2").1

/-- R1 run, step 7: round-2 payout completed. -/
def step7 : List Group := (R1.handleMarkPayoutComplete step6 "g1").1

/-- R1 run, step 8: advancing after the last slot marks the group
Completed. -/
def step8 : List Group := (R1.handleStartNextRound step7 "g1").1

/-- The fully played-out sample group: both rounds paid out, status
Completed, currentRound still 2 (= members.length). -/
def gDone : Group :=
  { gAB with
    status := GroupStatus.Completed
    currentRound := 2
    rounds := [{ roundNumber := 1
                 payoutMemberId := some "m1"
                 payments := [{ memberId := "m1", status := PaymentStatus.Paid },
                              { memberId := "m2", status := PaymentStatus.Paid }]
                 payoutCompleted := true },
               { roundNumber := 2
                 payoutMemberId := some "m2"
                 payments := [{ memberId := "m1", status := PaymentStatus.Paid },
                              { memberId := "m2", status := PaymentStatus.Paid }]
                 payoutCompleted := true }] }

/-- The R1 run indeed ends in the played-out group above. -/
theorem step8_eq : step8 = [gDone] := by decide

/-- C2 (amended): in the first revision, completePayout on a group whose
current round has payoutMemberId == null shows the toastAllMustPay error and
returns the state unchanged, never setting payoutCompleted; the second
revision has no recipient check at all: its completePayout sets the current
round's payoutCompleted := true and the group's status to 'Active'
unconditionally, even when payoutMemberId is null. -/
theorem C2_completePayout_gate :
    (∀ (gs : List Group) (gid : String) (i : Nat) (g : Group) (j : Nat) (r : Round),
      gs.findIdx? (fun g => g.id == gid) = some i → gs[i]? = some g →
      R1.findCurrentRound g = some (j, r) → r.payoutMemberId = none →
      R1.handleMarkPayoutComplete gs gid =
        (gs, [{ message := "toastAllMustPay", severity := "error" }])) ∧
    (∀ (gs : List Group) (gid : String) (i : Nat) (g : Group) (r : Round),
      gs[i]? = some g → (g.id == gid) = true →
      currentRoundOf g = some r →
      ∃ g1, (R2.handleMarkPayoutComplete gs gid)[i]? = some g1 ∧
        g1.status = GroupStatus.Active ∧
        currentRoundOf g1 = some { r with payoutCompleted := true }) := by
  constructor
  · intro gs gid i g j r hi hg hfc hnull
    have hne : R1.markPayoutCompleteGroup g = R1.PayoutStepResult.notEligible := by
      unfold R1.markPayoutCompleteGroup
      rw [hfc]
      simp [hnull, jsFalsy]
    exact R1.handleMarkPayoutComplete_notEligible_eq hi hg hne
  · intro gs gid i g r hg hid hcr
    have hcr2 : g.rounds.find? (fun r => r.roundNumber == g.currentRound) = some r := hcr
    have hpr : (r.roundNumber == g.currentRound) = true := by
      simpa using List.find?_some hcr2
    refine ⟨R2.markPayoutCompleteGroup g, ?_, rfl, ?_⟩
    · unfold R2.handleMarkPayoutComplete
      simp only [List.getElem?_map, hg, Option.map_some', Option.some.injEq]
      rw [if_pos hid]
    · unfold R2.markPayoutCompleteGroup currentRoundOf
      simp only
      rw [find?_map_pred (fun a _ => by
        by_cases hA : (a.roundNumber == g.currentRound) = true
        · simp [hA]
        · simp [hA])]
      rw [hcr2]
      simp only [Option.map_some', Option.some.injEq]
      rw [if_pos hpr]

/-- Round 1 of the fresh sample group. -/
def rAB : Round :=
  { roundNumber := 1
    payoutMemberId := none
    payments := [{ memberId := "m1", status := PaymentStatus.Unpaid },
                 { memberId := "m2", status := PaymentStatus.Unpaid }]
    payoutCompleted := false }

/-- Witness instantiating C2 on the concrete two-member group with no
recipient yet. -/
theorem C2_completePayout_gate_witness :
    R1.handleMarkPayoutComplete [gAB] "g1" =
      ([gAB], [{ message := "toastAllMustPay", severity := "error" }]) ∧
    ∃ g1, (R2.handleMarkPayoutComplete [gAB] "g1")[0]? = some g1 ∧
      g1.status = GroupStatus.Active ∧
      currentRoundOf g1 = some { rAB with payoutCompleted := true } :=
  ⟨C2_completePayout_gate.1 [gAB] "g1" 0 gAB 0 rAB (by decide) (by decide)
      (by decide) (by decide),
   C2_completePayout_gate.2 [gAB] "g1" 0 gAB rAB (by decide) (by decide) (by decide)⟩

/-- Counterexample to C2 as stated: the second revision's completePayout, on
a group whose current round has payoutMemberId null, does not fail and does
not leave the group unchanged — it marks the round paid out (with no
recipient) and activates the group. -/
theorem C2_completePayout_counterexample :
    (currentRoundOf gAB).map Round.payoutMemberId = some none ∧
    R2.handleMarkPayoutComplete [gAB] "g1" ≠ [gAB] ∧
    (R2.handleMarkPayoutComplete [gAB] "g1").map
        (fun g => (g.status, g.rounds.map (fun r => (r.payoutCompleted, r.payoutMemberId)))) =
      [(GroupStatus.Active, [(true, none)])] := by
  decide

/-- C5 (amended): neither revision checks the round's payoutCompleted flag or
the group's 'Completed' status in recordPayment: even on a paid-out round or
a Completed group it marks the member's payment Paid, replaces the group in
the state, and emits only success toasts — no InvalidStateError exists in the
code. -/
theorem C5_recordPayment_no_invalid_state_check :
    (∀ (gs : List Group) (gid mid : String) (i j k : Nat) (g : Group) (r : Round)
        (p : Payment),
      gs.findIdx? (fun g => g.id == gid) = some i → gs[i]? = some g →
      g.rounds.findIdx? (fun r => r.roundNumber == g.currentRound) = some j →
      g.rounds[j]? = some r →
      r.payments.findIdx? (fun q => q.memberId == mid) = some k →
      r.payments[k]? = some p →
      (r.payoutCompleted = true ∨ g.status = GroupStatus.Completed) →
      ∃ g1 b, R1.markAsPaidGroup g mid = some (g1, b) ∧
        R1.handleMarkAsPaid gs gid mid =
          (gs.set i g1,
            (if b then [{ message := "toastAllPaidPayoutReady", severity := "success" }]
             else []) ++
              [{ message := "toastPaymentUpdated", severity := "success" }]) ∧
        ∃ r1, g1.rounds[j]? = some r1 ∧
          r1.payments[k]? = some { p with status := PaymentStatus.Paid } ∧
          r1.payoutCompleted = r.payoutCompleted) ∧
    (∀ (gs : List Group) (gid mid : String) (i : Nat) (g : Group) (r : Round),
      gs[i]? = some g → (g.id == gid) = true →
      currentRoundOf g = some r →
      (r.payoutCompleted = true ∨ g.status = GroupStatus.Completed) →
      ∃ g1, (R2.handleMarkAsPaid gs gid mid)[i]? = some g1 ∧
        ∃ r1, currentRoundOf g1 = some r1 ∧
          r1.payments = r.payments.map (fun q =>
            if q.memberId == mid then { q with status := PaymentStatus.Paid } else q) ∧
          r1.payoutCompleted = r.payoutCompleted) := by
  constructor
  · intro gs gid mid i j k g r p hi hg hj hr hk hp _
    cases hm : R1.markAsPaidGroup g mid with
    | none =>
      exfalso
      unfold R1.markAsPaidGroup at hm
      simp only [hj, hr, hk, hp] at hm
      exact Option.noConfusion hm
    | some pb =>
      rcases pb with ⟨g1, b⟩
      have hm2 := hm
      unfold R1.markAsPaidGroup at hm2
      simp only [hj, hr, hk, hp, Option.some.injEq, Prod.mk.injEq] at hm2
      rcases hm2 with ⟨hg1, _⟩
      have hjlt : j < g.rounds.length := by
        rcases List.getElem?_eq_some_iff.mp hr with ⟨hlt, _⟩
        exact hlt
      have hklt : k < r.payments.length := by
        rcases List.getElem?_eq_some_iff.mp hp with ⟨hlt, _⟩
        exact hlt
      refine ⟨g1, b, rfl, R1.handleMarkAsPaid_core_some hi hg hm, ?_⟩
      by_cases hassign :
          ((r.payments.set k { p with status := PaymentStatus.Paid }).all
              (fun q => q.status == PaymentStatus.Paid) &&
            jsFalsy r.payoutMemberId) = true
      · refine ⟨{ r with
            payments := r.payments.set k { p with status := PaymentStatus.Paid }
            payoutMemberId := idxGet g.payoutOrder (g.currentRound - 1) }, ?_, ?_, rfl⟩
        · rw [← hg1]
          simp only [hassign, if_pos]
          exact List.getElem?_set_self hjlt
        · exact List.getElem?_set_self hklt
      · refine ⟨{ r with
            payments := r.payments.set k { p with status := PaymentStatus.Paid } },
            ?_, ?_, rfl⟩
        · rw [← hg1]
          simp only [Bool.not_eq_true] at hassign
          simp only [hassign, Bool.false_eq_true, if_false]
          exact List.getElem?_set_self hjlt
        · exact List.getElem?_set_self hklt
  · intro gs gid mid i g r hg hid hcr _
    have hcr2 : g.rounds.find? (fun r => r.roundNumber == g.currentRound) = some r := hcr
    have hpr : (r.roundNumber == g.currentRound) = true := by
      simpa using List.find?_some hcr2
    refine ⟨R2.markAsPaidGroup mid g, ?_, ?_⟩
    · unfold R2.handleMarkAsPaid
      simp only [List.getElem?_map, hg, Option.map_some', Option.some.injEq]
      rw [if_pos hid]
    · unfold R2.markAsPaidGroup currentRoundOf
      simp only
      rw [find?_map_pred (fun a _ => by rw [R2.markRound_roundNumber])]
      rw [hcr2]
      exact ⟨R2.markRound g mid r, rfl, (R2.markRound_of_match hpr).1,
        (R2.markRound_of_match hpr).2⟩

/-- A paid-out current round that still has an Unpaid member — the state the
InvalidStateError of the spec is about. -/
def rStuck : Round :=
  { roundNumber := 2
    payoutMemberId := some "m2"
    payments := [{ memberId := "m1", status := PaymentStatus.Paid },
                 { memberId := "m2", status := PaymentStatus.Unpaid }]
    payoutCompleted := true }

/-- A Completed group whose current (already paid-out) round still has an
Unpaid member. -/
def gStuck : Group :=
  { gDone with
    rounds := [{ roundNumber := 1
                 payoutMemberId := some "m1"
                 payments := [{ memberId := "m1", status := PaymentStatus.Paid },
                              { memberId := "m2", status := PaymentStatus.Paid }]
                 payoutCompleted := true },
               rStuck] }

/-- Witness instantiating C5 on the Completed group with a paid-out current
round. -/
theorem C5_recordPayment_no_invalid_state_check_witness :
    (∃ g1 b, R1.markAsPaidGroup gStuck "m2" = some (g1, b) ∧
      R1.handleMarkAsPaid [gStuck] "g1" "m2" =
        ([gStuck].set 0 g1,
          (if b then [{ message := "toastAllPaidPayoutReady", severity := "success" }]
           else []) ++
            [{ message := "toastPaymentUpdated", severity := "success" }]) ∧
      ∃ r1, g1.rounds[1]? = some r1 ∧
        r1.payments[1]? = some { memberId := "m2", status := PaymentStatus.Paid } ∧
        r1.payoutCompleted = rStuck.payoutCompleted) ∧
    (∃ g1, (R2.handleMarkAsPaid [gStuck] "g1" "m2")[0]? = some g1 ∧
      ∃ r1, currentRoundOf g1 = some r1 ∧
        r1.payments = rStuck.payments.map (fun q =>
          if q.memberId == "m2" then { q with status := PaymentStatus.Paid } else q) ∧
        r1.payoutCompleted = rStuck.payoutCompleted) :=
  ⟨C5_recordPayment_no_invalid_state_check.1 [gStuck] "g1" "m2" 0 1 1 gStuck rStuck
      { memberId := "m2", status := PaymentStatus.Unpaid } (by decide) (by decide)
      (by decide) (by decide) (by decide) (by decide) (Or.inl (by decide)),
   C5_recordPayment_no_invalid_state_check.2 [gStuck] "g1" "m2" 0 gStuck rStuck
      (by decide) (by decide) (by decide) (Or.inl (by decide))⟩

/-- Counterexample to C5 as stated: on a Completed group whose current round
is already paid out, recordPayment does not fail and does not return the
group unchanged — it marks the member Paid and emits only success toasts, in
both revisions. -/
theorem C5_recordPayment_counterexample :
    gStuck.status = GroupStatus.Completed ∧
    (currentRoundOf gStuck).map Round.payoutCompleted = some true ∧
    (R1.handleMarkAsPaid [gStuck] "g1" "m2").1 ≠ [gStuck] ∧
    (R1.handleMarkAsPaid [gStuck] "g1" "m2").2.map Toast.severity = ["success"] ∧
    R2.handleMarkAsPaid [gStuck] "g1" "m2" ≠ [gStuck] := by
  decide

/-- An Active group in its second round, with round-1 history. -/
def gActive : Group :=
  { gAB with
    status := GroupStatus.Active
    currentRound := 2
    rounds := [{ roundNumber := 1
                 payoutMemberId := some "m1"
                 payments := [{ memberId := "m1", status := PaymentStatus.Paid },
                              { memberId := "m2", status := PaymentStatus.Paid }]
                 payoutCompleted := true },
               { roundNumber := 2
                 payoutMemberId := none
                 payments := [{ memberId := "m1", status := PaymentStatus.Unpaid },
                              { memberId := "m2", status := PaymentStatus.Unpaid }]
                 payoutCompleted := false }] }

/-- Form payload that removes member m2 from the roster. -/
def dRemove : GroupFormData :=
  { name := "G", contributionAmount := 100, payoutFrequency := Frequency.Monthly,
    paymentFrequency := Frequency.Monthly, members := [mA], payoutOrder := ["m1"] }

/-- C4 (amended): a roster edit (removeMember) through handleSaveGroup does
not reset the group: in both revisions the edited group keeps its id, status,
currentRound and complete rounds history unchanged, and only the form fields
(name, contribution amount, frequencies, members, payoutOrder) are replaced;
no Pending/round-1 reset and no fresh Round 1 are produced. -/
theorem C4_removeMember_no_reset :
    (∀ (gs : List Group) (ge : Group) (d : GroupFormData) (fid : String) (g1 : Group),
      g1 ∈ (R1.handleSaveGroup gs (some ge) d fid).1 →
      g1 ∈ gs ∨
        (g1.id = ge.id ∧ g1.status = ge.status ∧ g1.currentRound = ge.currentRound ∧
          g1.rounds = ge.rounds ∧ g1.members = d.members ∧
          g1.payoutOrder = d.payoutOrder)) ∧
    (∀ (gs : List Group) (i : Nat) (gid : String) (d : GroupFormData) (fid : String)
        (g : Group),
      gs[i]? = some g → (g.id == gid) = true →
      ∃ g1, (R2.handleSaveGroup gs (some gid) d fid)[i]? = some g1 ∧
        g1.id = g.id ∧ g1.status = g.status ∧ g1.currentRound = g.currentRound ∧
        g1.rounds = g.rounds ∧ g1.members = d.members ∧
        g1.payoutOrder = d.payoutOrder) := by
  constructor
  · intro gs ge d fid g1 h1
    unfold R1.handleSaveGroup at h1
    rcases List.mem_map.mp h1 with ⟨g, hg, hEq⟩
    by_cases hid : (g.id == ge.id) = true
    · rw [if_pos hid] at hEq
      subst hEq
      exact Or.inr ⟨rfl, rfl, rfl, rfl, rfl, rfl⟩
    · rw [if_neg hid] at hEq
      subst hEq
      exact Or.inl hg
  · intro gs i gid d fid g hg hid
    refine ⟨applyFormData g d, ?_, rfl, rfl, rfl, rfl, rfl, rfl⟩
    unfold R2.handleSaveGroup
    simp only [List.getElem?_map, hg, Option.map_some', Option.some.injEq]
    rw [if_pos hid]

/-- Witness instantiating C4 on the Active two-round sample group with m2
removed. -/
theorem C4_removeMember_no_reset_witness :
    (applyFormData gActive dRemove ∈ (R1.handleSaveGroup [gActive] (some gActive) dRemove "x").1 ∧
      (applyFormData gActive dRemove ∈ [gActive] ∨
        ((applyFormData gActive dRemove).id = gActive.id ∧
          (applyFormData gActive dRemove).status = gActive.status ∧
          (applyFormData gActive dRemove).currentRound = gActive.currentRound ∧
          (applyFormData gActive dRemove).rounds = gActive.rounds ∧
          (applyFormData gActive dRemove).members = dRemove.members ∧
          (applyFormData gActive dRemove).payoutOrder = dRemove.payoutOrder))) ∧
    (∃ g1, (R2.handleSaveGroup [gActive] (some "g1") dRemove "x")[0]? = some g1 ∧
      g1.id = gActive.id ∧ g1.status = gActive.status ∧
      g1.currentRound = gActive.currentRound ∧ g1.rounds = gActive.rounds ∧
      g1.members = dRemove.members ∧ g1.payoutOrder = dRemove.payoutOrder) :=
  ⟨⟨by decide,
    C4_removeMember_no_reset.1 [gActive] gActive dRemove "x"
      (applyFormData gActive dRemove) (by decide)⟩,
   C4_removeMember_no_reset.2 [gActive] 0 "g1" dRemove "x" gActive
      (by decide) (by decide)⟩

/-- Counterexample to C4 as stated: removing a member from an Active group
leaves it Active in round 2 with both history rounds intact — no Pending
reset, no fresh single round. -/
theorem C4_removeMember_counterexample :
    gActive.status = GroupStatus.Active ∧
    (R1.handleSaveGroup [gActive] (some gActive) dRemove "x").1.map
        (fun g => (g.status, g.currentRound, g.rounds.length, g.members.map Member.id)) =
      [(GroupStatus.Active, 2, 2, ["m1"])] ∧
    (R2.handleSaveGroup [gActive] (some "g1") dRemove "x").map
        (fun g => (g.status, g.currentRound, g.rounds.length, g.members.map Member.id)) =
      [(GroupStatus.Active, 2, 2, ["m1"])] := by
  decide

/-- C7 (amended): recordPayment never changes a group's status and
advanceRound changes it only to 'Completed'; but completePayout sets the
status to 'Active' whenever it succeeds — in the second revision always, in
the first whenever the current round has a truthy payoutMemberId — so
applying completePayout to a 'Completed' group moves it back to 'Active';
status is not monotone. -/
theorem C7_status_monotonicity_breach :
    (∀ (g g1 : Group) (mid : String) (b : Bool),
      R1.markAsPaidGroup g mid = some (g1, b) → g1.status = g.status) ∧
    (∀ (g g1 : Group),
      R1.startNextRoundGroup g = R1.NextRoundResult.advanced g1 →
        g1.status = g.status) ∧
    (∀ (g g1 : Group),
      R1.startNextRoundGroup g = R1.NextRoundResult.completed g1 →
        g1.status = GroupStatus.Completed) ∧
    (∀ (g g1 : Group),
      R1.markPayoutCompleteGroup g = R1.PayoutStepResult.done g1 →
        g1.status = GroupStatus.Active) ∧
    (∀ (mid : String) (g : Group), (R2.markAsPaidGroup mid g).status = g.status) ∧
    (∀ (g : Group), (R2.startNextRoundGroup g).status = g.status ∨
      (R2.startNextRoundGroup g).status = GroupStatus.Completed) ∧
    (∀ (g : Group), (R2.markPayoutCompleteGroup g).status = GroupStatus.Active) := by
  refine ⟨?_, ?_, ?_, ?_, fun _ _ => rfl, ?_, fun _ => rfl⟩
  · intro g g1 mid b h
    exact (R1.markAsPaidGroup_fields h).2.2.2.2
  · intro g g1 h
    rcases R1.startNextRoundGroup_advanced h with ⟨_, _, hEq⟩
    subst hEq
    rfl
  · intro g g1 h
    rcases R1.startNextRoundGroup_completed h with ⟨_, _, hEq⟩
    subst hEq
    rfl
  · intro g g1 h
    rcases R1.markPayoutCompleteGroup_done h with ⟨_, _, _, _, _, hEq⟩
    subst hEq
    rfl
  · intro g
    unfold R2.startNextRoundGroup
    split
    · exact Or.inl rfl
    split
    · exact Or.inl rfl
    simp only []
    by_cases hlt : (g.members.length : Int) < g.currentRound + 1
    · rw [if_pos hlt]
      exact Or.inr rfl
    · rw [if_neg hlt]
      exact Or.inl rfl

/-- The played-out group reactivated by a stray completePayout. -/
def gDoneActive : Group := { gDone with status := GroupStatus.Active }

/-- An Active group that has completed round 1 of 2 and not yet advanced. -/
def gAct1 : Group :=
  { gAB with
    status := GroupStatus.Active
    rounds := [{ roundNumber := 1
                 payoutMemberId := some "m1"
                 payments := [{ memberId := "m1", status := PaymentStatus.Paid },
                              { memberId := "m2", status := PaymentStatus.Paid }]
                 payoutCompleted := true }] }

/-- Witness instantiating every conjunct of C7 on concrete groups; the
completePayout conjuncts exhibit the Completed-to-Active regression. -/
theorem C7_status_monotonicity_breach_witness :
    (R1.markAsPaidGroup gDone "m1" = some (gDone, false) ∧
      gDone.status = gDone.status) ∧
    (R1.startNextRoundGroup gAct1 = R1.NextRoundResult.advanced gActive ∧
      gActive.status = gAct1.status) ∧
    (R1.startNextRoundGroup gDone = R1.NextRoundResult.completed gDone ∧
      gDone.status = GroupStatus.Completed) ∧
    (R1.markPayoutCompleteGroup gDone = R1.PayoutStepResult.done gDoneActive ∧
      gDoneActive.status = GroupStatus.Active) ∧
    (R2.markAsPaidGroup "m1" gDone).status = gDone.status ∧
    ((R2.startNextRoundGroup gDone).status = gDone.status ∨
      (R2.startNextRoundGroup gDone).status = GroupStatus.Completed) ∧
    (R2.markPayoutCompleteGroup gDone).status = GroupStatus.Active :=
  ⟨⟨by decide, C7_status_monotonicity_breach.1 gDone gDone "m1" false (by decide)⟩,
   ⟨by decide, C7_status_monotonicity_breach.2.1 gAct1 gActive (by decide)⟩,
   ⟨by decide, C7_status_monotonicity_breach.2.2.1 gDone gDone (by decide)⟩,
   ⟨by decide, C7_status_monotonicity_breach.2.2.2.1 gDone gDoneActive (by decide)⟩,
   C7_status_monotonicity_breach.2.2.2.2.1 "m1" gDone,
   C7_status_monotonicity_breach.2.2.2.2.2.1 gDone,
   C7_status_monotonicity_breach.2.2.2.2.2.2 gDone⟩

/-- Counterexample to C7 as stated: the Completed end state of a full R1 run
is mapped back to 'Active' by completePayout in both revisions. -/
theorem C7_status_counterexample :
    step8 = [gDone] ∧
    gDone.status = GroupStatus.Completed ∧
    (R1.handleMarkPayoutComplete [gDone] "g1").1.map Group.status =
      [GroupStatus.Active] ∧
    (R2.handleMarkPayoutComplete [gDone] "g1").map Group.status =
      [GroupStatus.Active] := by
  decide

/-- C3 (amended): in the first revision advanceRound behaves exactly as the
claim states — error toast and unchanged state when the current round's
payoutCompleted is false, a single fresh all-Unpaid round `currentRound + 1`
appended when `currentRound < members.length`, and status := 'Completed' with
no new round when `currentRound == members.length`.  The second revision
additionally requires every payment of the current round to be Paid: when the
round is paid out but some payment is still Unpaid it leaves the group
unchanged instead of advancing. -/
theorem C3_advanceRound_behaviour :
    (∀ (gs : List Group) (gid : String) (i : Nat) (g : Group) (r : Round),
      gs.findIdx? (fun g => g.id == gid) = some i → gs[i]? = some g →
      currentRoundOf g = some r → r.payoutCompleted = false →
      R1.handleStartNextRound gs gid =
        (gs, [{ message := "toastPayoutMustBeCompleted", severity := "error" }])) ∧
    (∀ (gs : List Group) (gid : String) (i : Nat) (g : Group) (r : Round),
      gs.findIdx? (fun g => g.id == gid) = some i → gs[i]? = some g →
      currentRoundOf g = some r → r.payoutCompleted = true →
      g.currentRound < (g.members.length : Int) →
      R1.handleStartNextRound gs gid =
        (gs.set i { g with
          currentRound := g.currentRound + 1
          rounds := g.rounds ++
            [{ roundNumber := g.currentRound + 1
               payoutMemberId := none
               payments := unpaidPayments g.members
               payoutCompleted := false }] },
         [{ message := "toastRoundStarted", severity := "success" }])) ∧
    (∀ (gs : List Group) (gid : String) (i : Nat) (g : Group) (r : Round),
      gs.findIdx? (fun g => g.id == gid) = some i → gs[i]? = some g →
      currentRoundOf g = some r → r.payoutCompleted = true →
      g.currentRound = (g.members.length : Int) →
      R1.handleStartNextRound gs gid =
        (gs.set i { g with status := GroupStatus.Completed }, [])) ∧
    (∀ (g : Group) (r : Round),
      currentRoundOf g = some r → r.payoutCompleted = true →
      r.payments.all (fun q => q.status == PaymentStatus.Paid) = false →
      R2.startNextRoundGroup g = g) ∧
    (∀ (g : Group) (r : Round),
      currentRoundOf g = some r →
      r.payments.all (fun q => q.status == PaymentStatus.Paid) = true →
      r.payoutCompleted = true → g.currentRound < (g.members.length : Int) →
      R2.startNextRoundGroup g = { g with
        currentRound := g.currentRound + 1
        rounds := g.rounds ++
          [{ roundNumber := g.currentRound + 1
             payoutMemberId := none
             payments := unpaidPayments g.members
             payoutCompleted := false }] }) ∧
    (∀ (g : Group) (r : Round),
      currentRoundOf g = some r →
      r.payments.all (fun q => q.status == PaymentStatus.Paid) = true →
      r.payoutCompleted = true → g.currentRound = (g.members.length : Int) →
      R2.startNextRoundGroup g = { g with status := GroupStatus.Completed }) := by
  refine ⟨?_, ?_, ?_, ?_, ?_, ?_⟩
  · intro gs gid i g r hi hg hcr hpc
    have hcr2 : g.rounds.find? (fun r => r.roundNumber == g.currentRound) = some r := hcr
    have hcore : R1.startNextRoundGroup g = R1.NextRoundResult.blocked := by
      unfold R1.startNextRoundGroup
      rw [hcr2]
      simp [hpc]
    exact R1.handleStartNextRound_blocked_eq hi hg hcore
  · intro gs gid i g r hi hg hcr hpc hlt
    have hcr2 : g.rounds.find? (fun r => r.roundNumber == g.currentRound) = some r := hcr
    have hcore : R1.startNextRoundGroup g = R1.NextRoundResult.advanced
        { g with
          currentRound := g.currentRound + 1
          rounds := g.rounds ++
            [{ roundNumber := g.currentRound + 1
               payoutMemberId := none
               payments := unpaidPayments g.members
               payoutCompleted := false }] } := by
      unfold R1.startNextRoundGroup
      rw [hcr2]
      simp [hpc, hlt]
    exact R1.handleStartNextRound_advanced_eq hi hg hcore
  · intro gs gid i g r hi hg hcr hpc heq
    have hcr2 : g.rounds.find? (fun r => r.roundNumber == g.currentRound) = some r := hcr
    have hcore : R1.startNextRoundGroup g =
        R1.NextRoundResult.completed { g with status := GroupStatus.Completed } := by
      unfold R1.startNextRoundGroup
      rw [hcr2]
      simp [hpc, heq]
    exact R1.handleStartNextRound_completed_eq hi hg hcore
  · intro g r hcr hpc hap
    have hcr2 : g.rounds.find? (fun r => r.roundNumber == g.currentRound) = some r := hcr
    unfold R2.startNextRoundGroup
    rw [hcr2]
    simp [hap]
  · intro g r hcr hap hpc hlt
    have hcr2 : g.rounds.find? (fun r => r.roundNumber == g.currentRound) = some r := hcr
    have hnlt : ¬ (g.members.length : Int) < g.currentRound + 1 := by omega
    unfold R2.startNextRoundGroup
    rw [hcr2]
    simp [hap, hpc, hnlt]
  · intro g r hcr hap hpc heq
    have hcr2 : g.rounds.find? (fun r => r.roundNumber == g.currentRound) = some r := hcr
    have hlt : (g.members.length : Int) < g.currentRound + 1 := by omega
    unfold R2.startNextRoundGroup
    rw [hcr2]
    simp [hap, hpc, hlt]

/-- The state the second revision's unguarded completePayout reaches from the
fresh sample group: round 1 paid out with every payment still Unpaid. -/
def gBlock : Group :=
  { gAB with
    status := GroupStatus.Active
    rounds := [{ roundNumber := 1
                 payoutMemberId := none
                 payments := [{ memberId := "m1", status := PaymentStatus.Unpaid },
                              { memberId := "m2", status := PaymentStatus.Unpaid }]
                 payoutCompleted := true }] }

/-- Witness instantiating all six conjuncts of C3 on concrete groups. -/
theorem C3_advanceRound_behaviour_witness :
    R1.handleStartNextRound [gAB] "g1" =
      ([gAB], [{ message := "toastPayoutMustBeCompleted", severity := "error" }]) ∧
    R1.handleStartNextRound [gAct1] "g1" =
      ([gAct1].set 0 { gAct1 with
        currentRound := gAct1.currentRound + 1
        rounds := gAct1.rounds ++
          [{ roundNumber := gAct1.currentRound + 1
             payoutMemberId := none
             payments := unpaidPayments gAct1.members
             payoutCompleted := false }] },
       [{ message := "toastRoundStarted", severity := "success" }]) ∧
    R1.handleStartNextRound [gDone] "g1" =
      ([gDone].set 0 { gDone with status := GroupStatus.Completed }, []) ∧
    R2.startNextRoundGroup gBlock = gBlock ∧
    R2.startNextRoundGroup gAct1 = { gAct1 with
      currentRound := gAct1.currentRound + 1
      rounds := gAct1.rounds ++
        [{ roundNumber := gAct1.currentRound + 1
           payoutMemberId := none
           payments := unpaidPayments gAct1.members
           payoutCompleted := false }] } ∧
    R2.startNextRoundGroup gDone = { gDone with status := GroupStatus.Completed } :=
  ⟨C3_advanceRound_behaviour.1 [gAB] "g1" 0 gAB rAB (by decide) (by decide)
      (by decide) (by decide),
   C3_advanceRound_behaviour.2.1 [gAct1] "g1" 0 gAct1
      { roundNumber := 1
        payoutMemberId := some "m1"
        payments := [{ memberId := "m1", status := PaymentStatus.Paid },
                     { memberId := "m2", status := PaymentStatus.Paid }]
        payoutCompleted := true }
      (by decide) (by decide) (by decide) (by decide) (by decide),
   C3_advanceRound_behaviour.2.2.1 [gDone] "g1" 0 gDone
      { roundNumber := 2
        payoutMemberId := some "m2"
        payments := [{ memberId := "m1", status := PaymentStatus.Paid },
                     { memberId := "m2", status := PaymentStatus.Paid }]
        payoutCompleted := true }
      (by decide) (by decide) (by decide) (by decide) (by decide),
   C3_advanceRound_behaviour.2.2.2.1 gBlock
      { roundNumber := 1
        payoutMemberId := none
        payments := [{ memberId := "m1", status := PaymentStatus.Unpaid },
                     { memberId := "m2", status := PaymentStatus.Unpaid }]
        payoutCompleted := true }
      (by decide) (by decide) (by decide),
   C3_advanceRound_behaviour.2.2.2.2.1 gAct1
      { roundNumber := 1
        payoutMemberId := some "m1"
        payments := [{ memberId := "m1", status := PaymentStatus.Paid },
                     { memberId := "m2", status := PaymentStatus.Paid }]
        payoutCompleted := true }
      (by decide) (by decide) (by decide) (by decide),
   C3_advanceRound_behaviour.2.2.2.2.2 gDone
      { roundNumber := 2
        payoutMemberId := some "m2"
        payments := [{ memberId := "m1", status := PaymentStatus.Paid },
                     { memberId := "m2", status := PaymentStatus.Paid }]
        payoutCompleted := true }
      (by decide) (by decide) (by decide) (by decide)⟩

/-- Counterexample to C3 as stated: a group (reachable in the second revision
by one completePayout on a fresh group) whose current round is paid out with
`currentRound < members.length`, on which the second revision's advanceRound
appends nothing and leaves the state unchanged because a payment is still
Unpaid. -/
theorem C3_advanceRound_counterexample :
    R2.handleMarkPayoutComplete [gAB] "g1" = [gBlock] ∧
    (currentRoundOf gBlock).map Round.payoutCompleted = some true ∧
    gBlock.currentRound < (gBlock.members.length : Int) ∧
    R2.handleStartNextRound [gBlock] "g1" = [gBlock] := by
  decide

/-- markRound is the identity on a round whose payments contain no entry for
the member, provided the lazy-assignment guard does not fire. -/
theorem R2.markRound_noop {g : Group} {mid : String} {a : Round}
    (hq : ∀ q ∈ a.payments, (q.memberId == mid) = false)
    (hguard : (a.payments.all (fun q => q.status == PaymentStatus.Paid) &&
      jsFalsy a.payoutMemberId) = false) :
    R2.markRound g mid a = a := by
  unfold R2.markRound
  by_cases hA : (a.roundNumber == g.currentRound) = true
  · rw [if_pos hA]
    have hupd : a.payments.map (fun p =>
        if p.memberId == mid then { p with status := PaymentStatus.Paid } else p) =
        a.payments :=
      map_eq_self_of_fixes (fun q hqm => by simp [hq q hqm])
    simp only [hupd, hguard, Bool.false_eq_true, if_false]
  · rw [if_neg hA]

/-- C10 (amended): the silent no-op behaviour of recordPayment holds in the
first revision for all three lookup failures (unknown groupId, no round with
the current round number, no payment entry for the member): the state is
returned unchanged and no toast at all is shown.  The second revision is
value-preserving for an unknown groupId and a missing current round, and for
a missing payment entry only when no matching round simultaneously has all
payments Paid and a falsy payoutMemberId; in that corner case it still
assigns payoutOrder[currentRound - 1] as recipient, so the state changes. -/
theorem C10_recordPayment_silent_noop :
    (∀ (gs : List Group) (gid mid : String),
      (∀ g ∈ gs, (g.id == gid) = false) →
      R1.handleMarkAsPaid gs gid mid = (gs, [])) ∧
    (∀ (gs : List Group) (gid mid : String) (i : Nat) (g : Group),
      gs.findIdx? (fun g => g.id == gid) = some i → gs[i]? = some g →
      (∀ r ∈ g.rounds, (r.roundNumber == g.currentRound) = false) →
      R1.handleMarkAsPaid gs gid mid = (gs, [])) ∧
    (∀ (gs : List Group) (gid mid : String) (i j : Nat) (g : Group) (r : Round),
      gs.findIdx? (fun g => g.id == gid) = some i → gs[i]? = some g →
      R1.findCurrentRound g = some (j, r) →
      (∀ q ∈ r.payments, (q.memberId == mid) = false) →
      R1.handleMarkAsPaid gs gid mid = (gs, [])) ∧
    (∀ (gs : List Group) (gid mid : String),
      (∀ g ∈ gs, (g.id == gid) = false) →
      R2.handleMarkAsPaid gs gid mid = gs) ∧
    (∀ (mid : String) (g : Group),
      (∀ r ∈ g.rounds, (r.roundNumber == g.currentRound) = false) →
      R2.markAsPaidGroup mid g = g) ∧
    (∀ (mid : String) (g : Group),
      (∀ r ∈ g.rounds, (r.roundNumber == g.currentRound) = true →
        (∀ q ∈ r.payments, (q.memberId == mid) = false) ∧
        (r.payments.all (fun q => q.status == PaymentStatus.Paid) &&
          jsFalsy r.payoutMemberId) = false) →
      R2.markAsPaidGroup mid g = g) := by
  refine ⟨?_, ?_, ?_, ?_, ?_, ?_⟩
  · intro gs gid mid hnone
    exact R1.handleMarkAsPaid_group_not_found (List.findIdx?_eq_none_iff.mpr hnone)
  · intro gs gid mid i g hi hg hnone
    have hj : g.rounds.findIdx? (fun r => r.roundNumber == g.currentRound) = none :=
      List.findIdx?_eq_none_iff.mpr hnone
    have hm : R1.markAsPaidGroup g mid = none := by
      unfold R1.markAsPaidGroup
      rw [hj]
    exact R1.handleMarkAsPaid_core_none hi hg hm
  · intro gs gid mid i j g r hi hg hfc hnone
    rcases R1.findCurrentRound_some hfc with ⟨hj, hr, _⟩
    have hk : r.payments.findIdx? (fun q => q.memberId == mid) = none :=
      List.findIdx?_eq_none_iff.mpr hnone
    have hm : R1.markAsPaidGroup g mid = none := by
      unfold R1.markAsPaidGroup
      simp only [hj, hr, hk]
    exact R1.handleMarkAsPaid_core_none hi hg hm
  · intro gs gid mid hnone
    unfold R2.handleMarkAsPaid
    exact map_eq_self_of_fixes (fun g hgm => by rw [if_neg (by simp [hnone g hgm])])
  · intro mid g hnone
    unfold R2.markAsPaidGroup
    have hrounds : g.rounds.map (R2.markRound g mid) = g.rounds :=
      map_eq_self_of_fixes (fun a ham =>
        R2.markRound_of_ne (by simp [hnone a ham]))
    rw [hrounds]
  · intro mid g hcases
    unfold R2.markAsPaidGroup
    have hrounds : g.rounds.map (R2.markRound g mid) = g.rounds :=
      map_eq_self_of_fixes (fun a ham => by
        by_cases hA : (a.roundNumber == g.currentRound) = true
        · exact R2.markRound_noop (hcases a ham hA).1 (hcases a ham hA).2
        · exact R2.markRound_of_ne hA)
    rw [hrounds]

/-- A one-member group whose single payment is already Paid with no recipient
assigned. -/
def gPaidNoPM : Group :=
  { id := "g1", name := "G", contributionAmount := 100
    payoutFrequency := Frequency.Monthly, paymentFrequency := Frequency.Monthly
    members := [mA], payoutOrder := ["m1"], currentRound := 1
    status := GroupStatus.Pending
    rounds := [{ roundNumber := 1
                 payoutMemberId := none
                 payments := [{ memberId := "m1", status := PaymentStatus.Paid }]
                 payoutCompleted := false }] }

/-- Witness instantiating the six conjuncts of C10 on concrete inputs. -/
theorem C10_recordPayment_silent_noop_witness :
    R1.handleMarkAsPaid [gAB] "nope" "m1" = ([gAB], []) ∧
    R1.handleMarkAsPaid [{ gAB with currentRound := 9 }] "g1" "m1" =
      ([{ gAB with currentRound := 9 }], []) ∧
    R1.handleMarkAsPaid [gAB] "g1" "zzz" = ([gAB], []) ∧
    R2.handleMarkAsPaid [gAB] "nope" "m1" = [gAB] ∧
    R2.markAsPaidGroup "m1" { gAB with currentRound := 9 } =
      { gAB with currentRound := 9 } ∧
    R2.markAsPaidGroup "zzz" gAB = gAB :=
  ⟨C10_recordPayment_silent_noop.1 [gAB] "nope" "m1" (by decide),
   C10_recordPayment_silent_noop.2.1 [{ gAB with currentRound := 9 }] "g1" "m1" 0
     { gAB with currentRound := 9 } (by decide) (by decide) (by decide),
   C10_recordPayment_silent_noop.2.2.1 [gAB] "g1" "zzz" 0 0 gAB rAB
     (by decide) (by decide) (by decide) (by decide),
   C10_recordPayment_silent_noop.2.2.2.1 [gAB] "nope" "m1" (by decide),
   C10_recordPayment_silent_noop.2.2.2.2.1 "m1" { gAB with currentRound := 9 }
     (by decide),
   C10_recordPayment_silent_noop.2.2.2.2.2 "zzz" gAB (by decide)⟩

/-- Counterexample to C10 as stated: in the second revision, recordPayment
with a memberId that has no Payment entry is not always a state no-op — on a
round whose payments are all Paid with no recipient it assigns the payout
recipient. -/
theorem C10_recordPayment_counterexample :
    (currentRoundOf gPaidNoPM).map (fun r => r.payments.map Payment.memberId) =
      some ["m1"] ∧
    R2.handleMarkAsPaid [gPaidNoPM] "g1" "zzz" ≠ [gPaidNoPM] ∧
    (R2.handleMarkAsPaid [gPaidNoPM] "g1" "zzz").map
        (fun g => g.rounds.map Round.payoutMemberId) = [[some "m1"]] := by
  decide

/-- markRound preserves a truthy payoutMemberId (the lazy assignment only
fires on a falsy one). -/
theorem R2.markRound_payoutMemberId {g : Group} {mid : String} {a : Round}
    (hfalsy : jsFalsy a.payoutMemberId = false) :
    (R2.markRound g mid a).payoutMemberId = a.payoutMemberId := by
  unfold R2.markRound
  by_cases hA : (a.roundNumber == g.currentRound) = true
  · rw [if_pos hA]
    simp [hfalsy]
  · rw [if_neg hA]

/-- markRound assigns the payout recipient when the lazy-assignment guard
fires on the matching round. -/
theorem R2.markRound_assign {g : Group} {mid : String} {a : Round}
    (hA : (a.roundNumber == g.currentRound) = true)
    (hguard : ((a.payments.map (fun p =>
        if p.memberId == mid then { p with status := PaymentStatus.Paid } else p)).all
          (fun p => p.status == PaymentStatus.Paid) &&
      jsFalsy a.payoutMemberId) = true) :
    (R2.markRound g mid a).payoutMemberId =
      idxGet g.payoutOrder (g.currentRound - 1) := by
  unfold R2.markRound
  rw [if_pos hA]
  simp only []
  rw [if_pos hguard]

/-- The rounds map of the second revision's completePayout never changes a
round's payoutMemberId. -/
theorem R2.completeRound_payoutMemberId (g : Group) (a : Round) :
    ((if (a.roundNumber == g.currentRound) = true then
        { a with payoutCompleted := true } else a)).payoutMemberId =
      a.payoutMemberId := by
  by_cases hA : (a.roundNumber == g.currentRound) = true
  · rw [if_pos hA]
  · rw [if_neg hA]

/-- The second revision's advanceRound either keeps the rounds list or
appends exactly one round. -/
theorem R2.startNextRoundGroup_rounds (g : Group) :
    (R2.startNextRoundGroup g).rounds = g.rounds ∨
    ∃ x, (R2.startNextRoundGroup g).rounds = g.rounds ++ [x] := by
  unfold R2.startNextRoundGroup
  split
  · exact Or.inl rfl
  split
  · exact Or.inl rfl
  simp only []
  by_cases hlt : (g.members.length : Int) < g.currentRound + 1
  · rw [if_pos hlt]
    exact Or.inl rfl
  · rw [if_neg hlt]
    exact Or.inr ⟨_, rfl⟩

/-- A command preserves assigned payout recipients when every group position
keeps every round position's truthy payoutMemberId unchanged. -/
def preservesAssigned (f : List Group → List Group) : Prop :=
  ∀ (gs : List Group) (i j : Nat) (g : Group) (r : Round),
    gs[i]? = some g → g.rounds[j]? = some r → jsFalsy r.payoutMemberId = false →
    ∃ g1 r1, (f gs)[i]? = some g1 ∧ g1.rounds[j]? = some r1 ∧
      r1.payoutMemberId = r.payoutMemberId

/-- recordPayment of the first revision never recomputes an assigned
recipient. -/
theorem R1.handleMarkAsPaid_preserves (gid mid : String) :
    preservesAssigned (fun gs => (R1.handleMarkAsPaid gs gid mid).1) := by
  intro gs i j g r hgi hrj hfalsy
  simp only []
  cases hi : gs.findIdx? (fun g => g.id == gid) with
  | none =>
    refine ⟨g, r, ?_, hrj, rfl⟩
    rw [R1.handleMarkAsPaid_group_not_found hi]
    exact hgi
  | some i0 =>
    cases hg0 : gs[i0]? with
    | none =>
      refine ⟨g, r, ?_, hrj, rfl⟩
      rw [R1.handleMarkAsPaid_get_none hi hg0]
      exact hgi
    | some g0 =>
      cases hm : R1.markAsPaidGroup g0 mid with
      | none =>
        refine ⟨g, r, ?_, hrj, rfl⟩
        rw [R1.handleMarkAsPaid_core_none hi hg0 hm]
        exact hgi
      | some pb =>
        rcases pb with ⟨ga, b⟩
        rw [R1.handleMarkAsPaid_core_some hi hg0 hm]
        by_cases hii : i0 = i
        · subst hii
          have hgg : g = g0 := by
            rw [hg0] at hgi
            exact (Option.some.inj hgi).symm
          subst hgg
          rcases R1.markAsPaidGroup_rounds hm with
            ⟨j0, r0, r1, hr0, _, _, hrounds, _, _, hpm⟩
          have hout : (gs.set i0 ga)[i0]? = some ga :=
            List.getElem?_set_self (List.getElem?_eq_some_iff.mp hg0).1
          by_cases hjj : j0 = j
          · subst hjj
            have hrr : r = r0 := by
              rw [hr0] at hrj
              exact (Option.some.inj hrj).symm
            subst hrr
            have hpm2 : r1.payoutMemberId = r.payoutMemberId := by
              rcases hpm with h1 | ⟨h2, _⟩
              · exact h1
              · rw [hfalsy] at h2
                exact absurd h2 (by simp)
            refine ⟨ga, r1, hout, ?_, hpm2⟩
            rw [hrounds]
            exact List.getElem?_set_self (List.getElem?_eq_some_iff.mp hr0).1
          · refine ⟨ga, r, hout, ?_, rfl⟩
            rw [hrounds, List.getElem?_set_ne hjj]
            exact hrj
        · refine ⟨g, r, ?_, hrj, rfl⟩
          rw [List.getElem?_set_ne hii]
          exact hgi

/-- completePayout of the first revision never changes any round's
payoutMemberId. -/
theorem R1.handleMarkPayoutComplete_preserves (gid : String) :
    preservesAssigned (fun gs => (R1.handleMarkPayoutComplete gs gid).1) := by
  intro gs i j g r hgi hrj hfalsy
  simp only []
  cases hi : gs.findIdx? (fun g => g.id == gid) with
  | none =>
    refine ⟨g, r, ?_, hrj, rfl⟩
    rw [R1.handleMarkPayoutComplete_group_not_found hi]
    exact hgi
  | some i0 =>
    cases hg0 : gs[i0]? with
    | none =>
      refine ⟨g, r, ?_, hrj, rfl⟩
      rw [R1.handleMarkPayoutComplete_get_none hi hg0]
      exact hgi
    | some g0 =>
      cases hm : R1.markPayoutCompleteGroup g0 with
      | noRound =>
        refine ⟨g, r, ?_, hrj, rfl⟩
        rw [R1.handleMarkPayoutComplete_noRound hi hg0 hm]
        exact hgi
      | notEligible =>
        refine ⟨g, r, ?_, hrj, rfl⟩
        rw [R1.handleMarkPayoutComplete_notEligible_eq hi hg0 hm]
        exact hgi
      | done ga =>
        rw [R1.handleMarkPayoutComplete_done_eq hi hg0 hm]
        by_cases hii : i0 = i
        · subst hii
          have hgg : g = g0 := by
            rw [hg0] at hgi
            exact (Option.some.inj hgi).symm
          subst hgg
          rcases R1.markPayoutCompleteGroup_done hm with ⟨j0, r0, hr0, _, _, hEq⟩
          have hout : (gs.set i0 ga)[i0]? = some ga :=
            List.getElem?_set_self (List.getElem?_eq_some_iff.mp hg0).1
          by_cases hjj : j0 = j
          · subst hjj
            have hrr : r = r0 := by
              rw [hr0] at hrj
              exact (Option.some.inj hrj).symm
            subst hrr
            refine ⟨ga, { r with payoutCompleted := true }, hout, ?_, rfl⟩
            rw [hEq]
            show ((g.rounds.set j0 { r with payoutCompleted := true }))[j0]? = _
            exact List.getElem?_set_self (List.getElem?_eq_some_iff.mp hr0).1
          · refine ⟨ga, r, hout, ?_, rfl⟩
            rw [hEq]
            show ((g.rounds.set j0 { r0 with payoutCompleted := true }))[j]? = _
            rw [List.getElem?_set_ne hjj]
            exact hrj
        · refine ⟨g, r, ?_, hrj, rfl⟩
          rw [List.getElem?_set_ne hii]
          exact hgi

/-- advanceRound of the first revision never changes any existing round's
payoutMemberId. -/
theorem R1.handleStartNextRound_preserves (gid : String) :
    preservesAssigned (fun gs => (R1.handleStartNextRound gs gid).1) := by
  intro gs i j g r hgi hrj hfalsy
  simp only []
  cases hi : gs.findIdx? (fun g => g.id == gid) with
  | none =>
    refine ⟨g, r, ?_, hrj, rfl⟩
    rw [R1.handleStartNextRound_group_not_found hi]
    exact hgi
  | some i0 =>
    cases hg0 : gs[i0]? with
    | none =>
      refine ⟨g, r, ?_, hrj, rfl⟩
      rw [R1.handleStartNextRound_get_none hi hg0]
      exact hgi
    | some g0 =>
      cases hm : R1.startNextRoundGroup g0 with
      | blocked =>
        refine ⟨g, r, ?_, hrj, rfl⟩
        rw [R1.handleStartNextRound_blocked_eq hi hg0 hm]
        exact hgi
      | advanced ga =>
        rw [R1.handleStartNextRound_advanced_eq hi hg0 hm]
        by_cases hii : i0 = i
        · subst hii
          have hgg : g = g0 := by
            rw [hg0] at hgi
            exact (Option.some.inj hgi).symm
          subst hgg
          rcases R1.startNextRoundGroup_advanced hm with ⟨_, _, hEq⟩
          have hout : (gs.set i0 ga)[i0]? = some ga :=
            List.getElem?_set_self (List.getElem?_eq_some_iff.mp hg0).1
          refine ⟨ga, r, hout, ?_, rfl⟩
          rw [hEq]
          show (g.rounds ++ _)[j]? = _
          rw [List.getElem?_append_left (List.getElem?_eq_some_iff.mp hrj).1]
          exact hrj
        · refine ⟨g, r, ?_, hrj, rfl⟩
          rw [List.getElem?_set_ne hii]
          exact hgi
      | completed ga =>
        rw [R1.handleStartNextRound_completed_eq hi hg0 hm]
        by_cases hii : i0 = i
        · subst hii
          have hgg : g = g0 := by
            rw [hg0] at hgi
            exact (Option.some.inj hgi).symm
          subst hgg
          rcases R1.startNextRoundGroup_completed hm with ⟨_, _, hEq⟩
          have hout : (gs.set i0 ga)[i0]? = some ga :=
            List.getElem?_set_self (List.getElem?_eq_some_iff.mp hg0).1
          refine ⟨ga, r, hout, ?_, rfl⟩
          rw [hEq]
          exact hrj
        · refine ⟨g, r, ?_, hrj, rfl⟩
          rw [List.getElem?_set_ne hii]
          exact hgi

/-- recordPayment of the second revision never recomputes an assigned
recipient. -/
theorem R2.markAsPaid_preserves_assigned (gid mid : String) :
    preservesAssigned (fun gs => R2.handleMarkAsPaid gs gid mid) := by
  intro gs i j g r hgi hrj hfalsy
  have hout : (R2.handleMarkAsPaid gs gid mid)[i]? =
      some (if (g.id == gid) = true then R2.markAsPaidGroup mid g else g) := by
    unfold R2.handleMarkAsPaid
    rw [List.getElem?_map, hgi]
    rfl
  by_cases hid : (g.id == gid) = true
  · rw [if_pos hid] at hout
    refine ⟨R2.markAsPaidGroup mid g, R2.markRound g mid r, hout, ?_,
      R2.markRound_payoutMemberId hfalsy⟩
    show (g.rounds.map (R2.markRound g mid))[j]? = _
    rw [List.getElem?_map, hrj]
    rfl
  · rw [if_neg hid] at hout
    exact ⟨g, r, hout, hrj, rfl⟩

/-- completePayout of the second revision never changes any round's
payoutMemberId. -/
theorem R2.payoutComplete_preserves_assigned (gid : String) :
    preservesAssigned (fun gs => R2.handleMarkPayoutComplete gs gid) := by
  intro gs i j g r hgi hrj hfalsy
  have hout : (R2.handleMarkPayoutComplete gs gid)[i]? =
      some (if (g.id == gid) = true then R2.markPayoutCompleteGroup g else g) := by
    unfold R2.handleMarkPayoutComplete
    rw [List.getElem?_map, hgi]
    rfl
  by_cases hid : (g.id == gid) = true
  · rw [if_pos hid] at hout
    refine ⟨R2.markPayoutCompleteGroup g, _, hout, ?_,
      R2.completeRound_payoutMemberId g r⟩
    show (g.rounds.map _)[j]? = _
    rw [List.getElem?_map, hrj]
    rfl
  · rw [if_neg hid] at hout
    exact ⟨g, r, hout, hrj, rfl⟩

/-- advanceRound of the second revision never changes any existing round's
payoutMemberId. -/
theorem R2.nextRound_preserves_assigned (gid : String) :
    preservesAssigned (fun gs => R2.handleStartNextRound gs gid) := by
  intro gs i j g r hgi hrj hfalsy
  have hout : (R2.handleStartNextRound gs gid)[i]? =
      some (if (g.id == gid) = true then R2.startNextRoundGroup g else g) := by
    unfold R2.handleStartNextRound
    rw [List.getElem?_map, hgi]
    rfl
  by_cases hid : (g.id == gid) = true
  · rw [if_pos hid] at hout
    rcases R2.startNextRoundGroup_rounds g with hsame | ⟨x, happ⟩
    · refine ⟨R2.startNextRoundGroup g, r, hout, ?_, rfl⟩
      rw [hsame]
      exact hrj
    · refine ⟨R2.startNextRoundGroup g, r, hout, ?_, rfl⟩
      rw [happ, List.getElem?_append_left (List.getElem?_eq_some_iff.mp hrj).1]
      exact hrj
  · rw [if_neg hid] at hout
    exact ⟨g, r, hout, hrj, rfl⟩

/-- C1: when recordPayment marks a member Paid and afterwards every payment
of the current round is Paid while payoutMemberId was still null, the
returned group's current round gets
`payoutMemberId = payoutOrder[currentRound - 1]` (both revisions); and no
command (recordPayment, completePayout, advanceRound, in either revision)
ever changes an already-set (truthy) payoutMemberId of any round. -/
theorem C1_recipient_assignment :
    (∀ (gs : List Group) (gid mid : String) (i j k : Nat) (g : Group) (r : Round)
        (p : Payment),
      gs.findIdx? (fun g => g.id == gid) = some i → gs[i]? = some g →
      g.rounds.findIdx? (fun r => r.roundNumber == g.currentRound) = some j →
      g.rounds[j]? = some r →
      r.payments.findIdx? (fun q => q.memberId == mid) = some k →
      r.payments[k]? = some p →
      (r.payments.set k { p with status := PaymentStatus.Paid }).all
        (fun q => q.status == PaymentStatus.Paid) = true →
      r.payoutMemberId = none →
      ∃ g1 r1, ((R1.handleMarkAsPaid gs gid mid).1)[i]? = some g1 ∧
        currentRoundOf g1 = some r1 ∧
        r1.payoutMemberId = idxGet g.payoutOrder (g.currentRound - 1)) ∧
    (∀ (gs : List Group) (gid mid : String) (i : Nat) (g : Group) (r : Round),
      gs[i]? = some g → (g.id == gid) = true →
      currentRoundOf g = some r →
      (r.payments.map (fun q =>
        if q.memberId == mid then { q with status := PaymentStatus.Paid } else q)).all
          (fun q => q.status == PaymentStatus.Paid) = true →
      r.payoutMemberId = none →
      ∃ g1 r1, (R2.handleMarkAsPaid gs gid mid)[i]? = some g1 ∧
        currentRoundOf g1 = some r1 ∧
        r1.payoutMemberId = idxGet g.payoutOrder (g.currentRound - 1)) ∧
    (∀ gid mid, preservesAssigned (fun gs => (R1.handleMarkAsPaid gs gid mid).1)) ∧
    (∀ gid, preservesAssigned (fun gs => (R1.handleMarkPayoutComplete gs gid).1)) ∧
    (∀ gid, preservesAssigned (fun gs => (R1.handleStartNextRound gs gid).1)) ∧
    (∀ gid mid, preservesAssigned (fun gs => R2.handleMarkAsPaid gs gid mid)) ∧
    (∀ gid, preservesAssigned (fun gs => R2.handleMarkPayoutComplete gs gid)) ∧
    (∀ gid, preservesAssigned (fun gs => R2.handleStartNextRound gs gid)) := by
  refine ⟨?_, ?_, R1.handleMarkAsPaid_preserves, R1.handleMarkPayoutComplete_preserves,
    R1.handleStartNextRound_preserves, R2.markAsPaid_preserves_assigned,
    R2.payoutComplete_preserves_assigned, R2.nextRound_preserves_assigned⟩
  · intro gs gid mid i j k g r p hi hg hj hr hk hp hall hnull
    have hassign : ((r.payments.set k { p with status := PaymentStatus.Paid }).all
        (fun q => q.status == PaymentStatus.Paid) &&
      jsFalsy r.payoutMemberId) = true := by
      rw [hall, hnull]
      rfl
    cases hm : R1.markAsPaidGroup g mid with
    | none =>
      exfalso
      unfold R1.markAsPaidGroup at hm
      simp only [hj, hr, hk, hp] at hm
      exact Option.noConfusion hm
    | some pb =>
      rcases pb with ⟨g1, b⟩
      have hm2 := hm
      unfold R1.markAsPaidGroup at hm2
      simp only [hj, hr, hk, hp, Option.some.injEq, Prod.mk.injEq] at hm2
      rcases hm2 with ⟨hg1, _⟩
      rw [if_pos hassign] at hg1
      rw [R1.handleMarkAsPaid_core_some hi hg hm]
      have hprn : (r.roundNumber == g.currentRound) = true := by
        rw [roundNumber_of_found hj hr]
        simp
      refine ⟨g1, { r with
          payments := r.payments.set k { p with status := PaymentStatus.Paid }
          payoutMemberId := idxGet g.payoutOrder (g.currentRound - 1) },
        ?_, ?_, rfl⟩
      · exact hg1 ▸ List.getElem?_set_self (List.getElem?_eq_some_iff.mp hg).1
      · rw [← hg1]
        show (g.rounds.set j _).find? (fun rr => rr.roundNumber == g.currentRound) = _
        exact find?_eq_of_findIdx? (findIdx?_set_same hj hprn)
          (List.getElem?_set_self (List.getElem?_eq_some_iff.mp hr).1)
  · intro gs gid mid i g r hg hid hcr hall hnull
    have hcr2 : g.rounds.find? (fun r => r.roundNumber == g.currentRound) = some r := hcr
    have hprn : (r.roundNumber == g.currentRound) = true := by
      simpa using List.find?_some hcr2
    have hguard : ((r.payments.map (fun q =>
        if q.memberId == mid then { q with status := PaymentStatus.Paid } else q)).all
          (fun q => q.status == PaymentStatus.Paid) &&
      jsFalsy r.payoutMemberId) = true := by
      rw [hall, hnull]
      rfl
    refine ⟨R2.markAsPaidGroup mid g, R2.markRound g mid r, ?_, ?_,
      R2.markRound_assign hprn hguard⟩
    · unfold R2.handleMarkAsPaid
      simp only [List.getElem?_map, hg, Option.map_some', Option.some.injEq]
      rw [if_pos hid]
    · unfold R2.markAsPaidGroup currentRoundOf
      simp only
      rw [find?_map_pred (fun a _ => by rw [R2.markRound_roundNumber]), hcr2]
      rfl


/-- The fresh sample group with member one already Paid in round 1. -/
def rHalf : Round :=
  { roundNumber := 1
    payoutMemberId := none
    payments := [{ memberId := "m1", status := PaymentStatus.Paid },
                 { memberId := "m2", status := PaymentStatus.Unpaid }]
    payoutCompleted := false }

/-- The sample group one payment away from the lazy recipient assignment. -/
def gHalf : Group := { gAB with rounds := [rHalf] }

/-- Round 1 of the played-out sample group. -/
def rDone1 : Round :=
  { roundNumber := 1
    payoutMemberId := some "m1"
    payments := [{ memberId := "m1", status := PaymentStatus.Paid },
                 { memberId := "m2", status := PaymentStatus.Paid }]
    payoutCompleted := true }

/-- Witness instantiating every conjunct of C1: the last payment triggers the
recipient assignment in both revisions, and each of the six commands keeps
the assigned recipient of the played-out group intact. -/
theorem C1_recipient_assignment_witness :
    (∃ g1 r1, ((R1.handleMarkAsPaid [gHalf] "g1" "m2").1)[0]? = some g1 ∧
      currentRoundOf g1 = some r1 ∧
      r1.payoutMemberId = idxGet gHalf.payoutOrder (gHalf.currentRound - 1)) ∧
    (∃ g1 r1, (R2.handleMarkAsPaid [gHalf] "g1" "m2")[0]? = some g1 ∧
      currentRoundOf g1 = some r1 ∧
      r1.payoutMemberId = idxGet gHalf.payoutOrder (gHalf.currentRound - 1)) ∧
    (∃ g1 r1, ((R1.handleMarkAsPaid [gDone] "g1" "m1").1)[0]? = some g1 ∧
      g1.rounds[0]? = some r1 ∧ r1.payoutMemberId = rDone1.payoutMemberId) ∧
    (∃ g1 r1, ((R1.handleMarkPayoutComplete [gDone] "g1").1)[0]? = some g1 ∧
      g1.rounds[0]? = some r1 ∧ r1.payoutMemberId = rDone1.payoutMemberId) ∧
    (∃ g1 r1, ((R1.handleStartNextRound [gDone] "g1").1)[0]? = some g1 ∧
      g1.rounds[0]? = some r1 ∧ r1.payoutMemberId = rDone1.payoutMemberId) ∧
    (∃ g1 r1, (R2.handleMarkAsPaid [gDone] "g1" "m1")[0]? = some g1 ∧
      g1.rounds[0]? = some r1 ∧ r1.payoutMemberId = rDone1.payoutMemberId) ∧
    (∃ g1 r1, (R2.handleMarkPayoutComplete [gDone] "g1")[0]? = some g1 ∧
      g1.rounds[0]? = some r1 ∧ r1.payoutMemberId = rDone1.payoutMemberId) ∧
    (∃ g1 r1, (R2.handleStartNextRound [gDone] "g1")[0]? = some g1 ∧
      g1.rounds[0]? = some r1 ∧ r1.payoutMemberId = rDone1.payoutMemberId) :=
  ⟨C1_recipient_assignment.1 [gHalf] "g1" "m2" 0 0 1 gHalf rHalf
      { memberId := "m2", status := PaymentStatus.Unpaid }
      (by decide) (by decide) (by decide) (by decide) (by decide) (by decide)
      (by decide) (by decide),
   C1_recipient_assignment.2.1 [gHalf] "g1" "m2" 0 gHalf rHalf
      (by decide) (by decide) (by decide) (by decide) (by decide),
   C1_recipient_assignment.2.2.1 "g1" "m1" [gDone] 0 0 gDone rDone1
      (by decide) (by decide) (by decide),
   C1_recipient_assignment.2.2.2.1 "g1" [gDone] 0 0 gDone rDone1
      (by decide) (by decide) (by decide),
   C1_recipient_assignment.2.2.2.2.1 "g1" [gDone] 0 0 gDone rDone1
      (by decide) (by decide) (by decide),
   C1_recipient_assignment.2.2.2.2.2.1 "g1" "m1" [gDone] 0 0 gDone rDone1
      (by decide) (by decide) (by decide),
   C1_recipient_assignment.2.2.2.2.2.2.1 "g1" [gDone] 0 0 gDone rDone1
      (by decide) (by decide) (by decide),
   C1_recipient_assignment.2.2.2.2.2.2.2 "g1" [gDone] 0 0 gDone rDone1
      (by decide) (by decide) (by decide)⟩


/-- Marking a payment Paid twice is the same as marking it once
(pointwise payment map of the second revision). -/
theorem markPayment_idem (mid : String) (p : Payment) :
    (fun q => if q.memberId == mid then { q with status := PaymentStatus.Paid } else q)
      ((fun q => if q.memberId == mid then { q with status := PaymentStatus.Paid } else q) p) =
    (fun q => if q.memberId == mid then { q with status := PaymentStatus.Paid } else q) p := by
  by_cases h : (p.memberId == mid) = true
  · simp [h]
  · simp [h]

/-- Mapping the payment-marking function twice equals mapping it once. -/
theorem markPayments_map_idem (mid : String) (l : List Payment) :
    (l.map (fun q =>
      if q.memberId == mid then { q with status := PaymentStatus.Paid } else q)).map
        (fun q =>
          if q.memberId == mid then { q with status := PaymentStatus.Paid } else q) =
    l.map (fun q =>
      if q.memberId == mid then { q with status := PaymentStatus.Paid } else q) := by
  rw [List.map_map]
  exact List.map_congr_left (fun a _ => markPayment_idem mid a)

/-- markRound is idempotent, also across the group snapshots of the two
applications as long as currentRound and payoutOrder agree. -/
theorem R2.markRound_idem {g g2 : Group} {mid : String}
    (hc : g2.currentRound = g.currentRound) (hp : g2.payoutOrder = g.payoutOrder)
    (a : Round) :
    R2.markRound g2 mid (R2.markRound g mid a) = R2.markRound g mid a := by
  by_cases hA : (a.roundNumber == g.currentRound) = true
  · by_cases hguard : ((a.payments.map (fun q =>
        if q.memberId == mid then { q with status := PaymentStatus.Paid } else q)).all
          (fun q => q.status == PaymentStatus.Paid) &&
        jsFalsy a.payoutMemberId) = true
    · have ha1 : R2.markRound g mid a =
          { a with
            payments := a.payments.map (fun q =>
              if q.memberId == mid then { q with status := PaymentStatus.Paid } else q)
            payoutMemberId := idxGet g.payoutOrder (g.currentRound - 1) } := by
        unfold R2.markRound
        rw [if_pos hA]
        simp only []
        rw [if_pos hguard]
      rw [ha1]
      unfold R2.markRound
      have hA2 : ((({ a with
          payments := a.payments.map (fun q =>
            if q.memberId == mid then { q with status := PaymentStatus.Paid } else q)
          payoutMemberId := idxGet g.payoutOrder (g.currentRound - 1) } : Round)).roundNumber ==
            g2.currentRound) = true := by
        show (a.roundNumber == g2.currentRound) = true
        rw [hc]
        exact hA
      rw [if_pos hA2]
      simp only []
      rw [markPayments_map_idem]
      have hall : (a.payments.map (fun q =>
          if q.memberId == mid then { q with status := PaymentStatus.Paid } else q)).all
            (fun q => q.status == PaymentStatus.Paid) = true :=
        ((Bool.and_eq_true _ _).mp hguard).1
      by_cases hv : jsFalsy (idxGet g.payoutOrder (g.currentRound - 1)) = true
      · rw [if_pos (by rw [hall, hv]; rfl)]
        rw [hc, hp]
      · rw [if_neg (by rw [hall]; simpa using hv)]
    · have ha1 : R2.markRound g mid a =
          { a with
            payments := a.payments.map (fun q =>
              if q.memberId == mid then { q with status := PaymentStatus.Paid } else q) } := by
        unfold R2.markRound
        rw [if_pos hA]
        simp only []
        rw [if_neg hguard]
      rw [ha1]
      unfold R2.markRound
      have hA2 : ((({ a with
          payments := a.payments.map (fun q =>
            if q.memberId == mid then { q with status := PaymentStatus.Paid } else q) } :
            Round)).roundNumber == g2.currentRound) = true := by
        show (a.roundNumber == g2.currentRound) = true
        rw [hc]
        exact hA
      rw [if_pos hA2]
      simp only []
      rw [markPayments_map_idem]
      rw [if_neg hguard]
  · rw [R2.markRound_of_ne hA]
    exact R2.markRound_of_ne (by rw [hc]; exact hA)

/-- The per-group recordPayment of the second revision is idempotent. -/
theorem R2.markAsPaidGroup_idem (mid : String) (g : Group) :
    R2.markAsPaidGroup mid (R2.markAsPaidGroup mid g) = R2.markAsPaidGroup mid g := by
  unfold R2.markAsPaidGroup
  simp only [List.map_map]
  congr 1
  exact List.map_congr_left (fun a _ => R2.markRound_idem rfl rfl a)


/-- handleMarkAsPaid of the second revision is idempotent on the whole
state. -/
theorem R2.handleMarkAsPaid_idem (gs : List Group) (gid mid : String) :
    R2.handleMarkAsPaid (R2.handleMarkAsPaid gs gid mid) gid mid =
      R2.handleMarkAsPaid gs gid mid := by
  unfold R2.handleMarkAsPaid
  rw [List.map_map]
  apply List.map_congr_left
  intro g _
  by_cases hid : (g.id == gid) = true
  · have hid2 : ((R2.markAsPaidGroup mid g).id == gid) = true := hid
    simp only [Function.comp_apply, if_pos hid, if_pos hid2]
    exact R2.markAsPaidGroup_idem mid g
  · simp only [Function.comp_apply, if_neg hid]

/-- Re-marking an already-Paid payment in the first revision's per-group core
returns the group unchanged in value. -/
theorem R1.markAsPaidGroup_paid_idem {g G1 : Group} {mid : String} {b : Bool}
    {j k : Nat} {r : Round} {p : Payment}
    (hj : g.rounds.findIdx? (fun rr => rr.roundNumber == g.currentRound) = some j)
    (hr : g.rounds[j]? = some r)
    (hk : r.payments.findIdx? (fun q => q.memberId == mid) = some k)
    (hp : r.payments[k]? = some p)
    (hps : p.status = PaymentStatus.Paid)
    (hm : R1.markAsPaidGroup g mid = some (G1, b)) :
    ∃ b2, R1.markAsPaidGroup G1 mid = some (G1, b2) := by
  have hpp : ({ p with status := PaymentStatus.Paid } : Payment) = p := by
    cases p with
    | mk pm ps =>
      cases hps
      rfl
  have hset : r.payments.set k { p with status := PaymentStatus.Paid } = r.payments := by
    rw [hpp]
    exact set_elem_self hp
  have hprn : (r.roundNumber == g.currentRound) = true := by
    rw [roundNumber_of_found hj hr]
    simp
  have hm2 := hm
  unfold R1.markAsPaidGroup at hm2
  simp only [hj, hr, hk, hp, Option.some.injEq, Prod.mk.injEq] at hm2
  rcases hm2 with ⟨hg1, hb⟩
  rw [hset] at hg1
  by_cases hassign : (r.payments.all (fun q => q.status == PaymentStatus.Paid) &&
      jsFalsy r.payoutMemberId) = true
  · rw [if_pos hassign] at hg1
    have hG1 : G1 = { g with rounds := g.rounds.set j { r with payoutMemberId := idxGet g.payoutOrder (g.currentRound - 1) } } := by
      rw [← hg1]
    have hj2 : G1.rounds.findIdx? (fun rr => rr.roundNumber == G1.currentRound) = some j := by
      rw [hG1]
      exact findIdx?_set_same hj hprn
    have hr2 : G1.rounds[j]? = some
        { r with payoutMemberId := idxGet g.payoutOrder (g.currentRound - 1) } := by
      rw [hG1]
      exact List.getElem?_set_self (List.getElem?_eq_some_iff.mp hr).1
    refine ⟨(r.payments.all (fun q => q.status == PaymentStatus.Paid) &&
      jsFalsy (idxGet g.payoutOrder (g.currentRound - 1))), ?_⟩
    unfold R1.markAsPaidGroup
    simp only [hj2, hr2, hk, hp]
    rw [hset]
    by_cases hv : jsFalsy (idxGet g.payoutOrder (g.currentRound - 1)) = true
    · rw [if_pos (by
        rw [((Bool.and_eq_true _ _).mp hassign).1, hv]
        rfl)]
      rw [hG1]
      simp [List.set_set]
    · rw [if_neg (by
        rw [((Bool.and_eq_true _ _).mp hassign).1]
        simpa using hv)]
      rw [hG1]
      simp [List.set_set]
  · rw [if_neg hassign] at hg1
    have hG1 : G1 = { g with rounds := g.rounds.set j r } := by
      rw [← hg1]
    have hj2 : G1.rounds.findIdx? (fun rr => rr.roundNumber == G1.currentRound) = some j := by
      rw [hG1]
      exact findIdx?_set_same hj hprn
    have hr2 : G1.rounds[j]? = some r := by
      rw [hG1]
      exact List.getElem?_set_self (List.getElem?_eq_some_iff.mp hr).1
    refine ⟨(r.payments.all (fun q => q.status == PaymentStatus.Paid) &&
      jsFalsy r.payoutMemberId), ?_⟩
    unfold R1.markAsPaidGroup
    simp only [hj2, hr2, hk, hp]
    rw [hset]
    rw [if_neg hassign]
    rw [hG1]
    simp [List.set_set]


/-- C9: re-marking an already-Paid member is a value-level no-op in both
revisions: applying recordPayment a second time with the same memberId yields
a state equal to the one after the first application. -/
theorem C9_recordPayment_idempotent :
    (∀ (gs : List Group) (gid mid : String) (i j k : Nat) (g : Group) (r : Round)
        (p : Payment),
      gs.findIdx? (fun g => g.id == gid) = some i → gs[i]? = some g →
      g.rounds.findIdx? (fun rr => rr.roundNumber == g.currentRound) = some j →
      g.rounds[j]? = some r →
      r.payments.findIdx? (fun q => q.memberId == mid) = some k →
      r.payments[k]? = some p → p.status = PaymentStatus.Paid →
      (R1.handleMarkAsPaid (R1.handleMarkAsPaid gs gid mid).1 gid mid).1 =
        (R1.handleMarkAsPaid gs gid mid).1) ∧
    (∀ (gs : List Group) (gid mid : String),
      R2.handleMarkAsPaid (R2.handleMarkAsPaid gs gid mid) gid mid =
        R2.handleMarkAsPaid gs gid mid) := by
  constructor
  · intro gs gid mid i j k g r p hi hg hj hr hk hp hps
    cases hm : R1.markAsPaidGroup g mid with
    | none =>
      exfalso
      unfold R1.markAsPaidGroup at hm
      simp only [hj, hr, hk, hp] at hm
      exact Option.noConfusion hm
    | some pb =>
      rcases pb with ⟨G1, b⟩
      rcases R1.markAsPaidGroup_paid_idem hj hr hk hp hps hm with ⟨b2, hm2⟩
      have hpredg : (g.id == gid) = true := by
        rcases findIdx?_some_elem hi with ⟨a, ha, hpa⟩
        rw [hg] at ha
        cases ha
        exact hpa
      have hidG1 : (G1.id == gid) = true := by
        rw [(R1.markAsPaidGroup_fields hm).1]
        exact hpredg
      have hi2 : (gs.set i G1).findIdx? (fun g => g.id == gid) = some i :=
        findIdx?_set_same hi hidG1
      have hg2 : (gs.set i G1)[i]? = some G1 :=
        List.getElem?_set_self (List.getElem?_eq_some_iff.mp hg).1
      rw [R1.handleMarkAsPaid_core_some hi hg hm]
      simp only []
      rw [R1.handleMarkAsPaid_core_some hi2 hg2 hm2]
      simp [List.set_set]
  · intro gs gid mid
    exact R2.handleMarkAsPaid_idem gs gid mid

/-- Witness instantiating C9 on the half-paid sample group, re-marking the
already-Paid member one. -/
theorem C9_recordPayment_idempotent_witness :
    (R1.handleMarkAsPaid (R1.handleMarkAsPaid [gHalf] "g1" "m1").1 "g1" "m1").1 =
      (R1.handleMarkAsPaid [gHalf] "g1" "m1").1 ∧
    R2.handleMarkAsPaid (R2.handleMarkAsPaid [gHalf] "g1" "m1") "g1" "m1" =
      R2.handleMarkAsPaid [gHalf] "g1" "m1" :=
  ⟨C9_recordPayment_idempotent.1 [gHalf] "g1" "m1" 0 0 0 gHalf rHalf
      { memberId := "m1", status := PaymentStatus.Paid }
      (by decide) (by decide) (by decide) (by decide) (by decide) (by decide)
      (by decide),
   C9_recordPayment_idempotent.2 [gHalf] "g1" "m1"⟩


/-- A freshly created group, exactly as the create branch of handleSaveGroup
builds it (both revisions, and the createInitialData seed). -/
def IsFresh (g : Group) : Prop :=
  g.currentRound = 1 ∧ g.status = GroupStatus.Pending ∧
    g.rounds = [{ roundNumber := 1
                  payoutMemberId := none
                  payments := unpaidPayments g.members
                  payoutCompleted := false }]

/-- States reachable from freshly created groups by any sequence of the first
revision's three round commands (recordPayment, completePayout,
advanceRound). -/
inductive ReachableR1 : List Group → Prop where
  | fresh (gs : List Group) : (∀ g ∈ gs, IsFresh g) → ReachableR1 gs
  | mark (gs : List Group) (gid mid : String) : ReachableR1 gs →
      ReachableR1 (R1.handleMarkAsPaid gs gid mid).1
  | complete (gs : List Group) (gid : String) : ReachableR1 gs →
      ReachableR1 (R1.handleMarkPayoutComplete gs gid).1
  | next (gs : List Group) (gid : String) : ReachableR1 gs →
      ReachableR1 (R1.handleStartNextRound gs gid).1

/-- Per-group payout-recipient invariant: a truthy payoutMemberId always
matches the payout order slot of its round, and a completed round always has
a truthy payoutMemberId. -/
def InvPayout (g : Group) : Prop :=
  ∀ r ∈ g.rounds,
    (jsFalsy r.payoutMemberId = false →
      r.payoutMemberId = idxGet g.payoutOrder (r.roundNumber - 1)) ∧
    (r.payoutCompleted = true → jsFalsy r.payoutMemberId = false)

/-- Fresh groups satisfy the payout invariant. -/
theorem invPayout_fresh {g : Group} (h : IsFresh g) : InvPayout g := by
  intro r hrm
  rw [h.2.2] at hrm
  simp only [List.mem_singleton] at hrm
  subst hrm
  exact ⟨fun hfalse => by simp [jsFalsy] at hfalse, fun hpc => by simp at hpc⟩

/-- recordPayment's per-group core preserves the payout invariant. -/
theorem invPayout_mark {g g1 : Group} {mid : String} {b : Bool}
    (hm : R1.markAsPaidGroup g mid = some (g1, b)) (hinv : InvPayout g) :
    InvPayout g1 := by
  have hfields := R1.markAsPaidGroup_fields hm
  rcases R1.markAsPaidGroup_rounds hm with
    ⟨j, r0, r1, hr0, hnum, _, hrounds, hnum1, hpc1, hpm⟩
  intro r hrm
  rw [hrounds] at hrm
  rcases List.mem_or_eq_of_mem_set hrm with hin | hEq
  · have h0 := hinv r hin
    rw [hfields.2.2.1]
    exact h0
  · subst hEq
    have hr0mem : r0 ∈ g.rounds := List.getElem?_mem hr0
    have h0 := hinv r0 hr0mem
    rcases hpm with hsame | ⟨hfalsy0, hassigned⟩
    · constructor
      · intro hfalse
        rw [hsame] at hfalse ⊢
        rw [hfields.2.2.1, hnum1]
        exact h0.1 hfalse
      · intro hpc
        rw [hpc1] at hpc
        rw [hsame]
        exact h0.2 hpc
    · constructor
      · intro _
        rw [hassigned, hfields.2.2.1, hnum1, hnum]
      · intro hpc
        rw [hpc1] at hpc
        have := h0.2 hpc
        rw [hfalsy0] at this
        exact absurd this (by simp)

/-- completePayout's per-group core preserves the payout invariant. -/
theorem invPayout_complete {g g1 : Group}
    (hm : R1.markPayoutCompleteGroup g = R1.PayoutStepResult.done g1)
    (hinv : InvPayout g) : InvPayout g1 := by
  rcases R1.markPayoutCompleteGroup_done hm with ⟨j, r0, hr0, hnum, hfalsy, hEq⟩
  subst hEq
  intro r hrm
  rcases List.mem_or_eq_of_mem_set hrm with hin | hEq
  · exact hinv r hin
  · subst hEq
    have h0 := hinv r0 (List.getElem?_mem hr0)
    exact ⟨fun hfalse => h0.1 hfalse, fun _ => hfalsy⟩

/-- advanceRound's per-group core preserves the payout invariant. -/
theorem invPayout_next {g g1 : Group}
    (hm : R1.startNextRoundGroup g = R1.NextRoundResult.advanced g1 ∨
      R1.startNextRoundGroup g = R1.NextRoundResult.completed g1)
    (hinv : InvPayout g) : InvPayout g1 := by
  rcases hm with hm | hm
  · rcases R1.startNextRoundGroup_advanced hm with ⟨_, _, hEq⟩
    subst hEq
    intro r hrm
    rcases List.mem_append.mp hrm with hin | hnew
    · exact hinv r hin
    · simp only [List.mem_singleton] at hnew
      subst hnew
      exact ⟨fun hfalse => by simp [jsFalsy] at hfalse, fun hpc => by simp at hpc⟩
  · rcases R1.startNextRoundGroup_completed hm with ⟨_, _, hEq⟩
    subst hEq
    intro r hrm
    exact hinv r hrm

/-- Every group of a reachable state satisfies the payout invariant. -/
theorem invPayout_reachable {gs : List Group} (h : ReachableR1 gs) :
    ∀ g ∈ gs, InvPayout g := by
  induction h with
  | fresh gs hf =>
    intro g hgm
    exact invPayout_fresh (hf g hgm)
  | mark gs gid mid _ ih =>
    intro g1 hg1m
    rcases R1.handleMarkAsPaid_mem hg1m with hin | ⟨g, hgm, b, hm⟩
    · exact ih g1 hin
    · exact invPayout_mark hm (ih g hgm)
  | complete gs gid _ ih =>
    intro g1 hg1m
    rcases R1.handleMarkPayoutComplete_mem hg1m with hin | ⟨g, hgm, hm⟩
    · exact ih g1 hin
    · exact invPayout_complete hm (ih g hgm)
  | next gs gid _ ih =>
    intro g1 hg1m
    rcases R1.handleStartNextRound_mem hg1m with hin | ⟨g, hgm, hm⟩
    · exact ih g1 hin
    · exact invPayout_next hm (ih g hgm)


/-- A payout-order reorder payload: same roster and terms as the sample
group, but payout order m2 then m1. -/
def dSwap : GroupFormData :=
  { dAB with payoutOrder := ["m2", "m1"] }

/-- The played-out sample state after a roster edit through the first
revision's handleSaveGroup that reorders the payout order. -/
def stepEdit : List Group := (R1.handleSaveGroup step8 (some gDone) dSwap "g2").1

/-- The played-out sample state is reachable by round commands alone. -/
theorem reachable_step8 : ReachableR1 step8 := by
  have h0 : ReachableR1 [gAB] := ReachableR1.fresh [gAB] (by
    intro g hgm
    simp only [List.mem_singleton] at hgm
    subst hgm
    exact ⟨rfl, rfl, rfl⟩)
  have h1 : ReachableR1 step1 := ReachableR1.mark [gAB] "g1" "m1" h0
  have h2 : ReachableR1 step2 := ReachableR1.mark step1 "g1" "m2" h1
  have h3 : ReachableR1 step3 := ReachableR1.complete step2 "g1" h2
  have h4 : ReachableR1 step4 := ReachableR1.next step3 "g1" h3
  have h5 : ReachableR1 step5 := ReachableR1.mark step4 "g1" "m1" h4
  have h6 : ReachableR1 step6 := ReachableR1.mark step5 "g1" "m2" h5
  have h7 : ReachableR1 step7 := ReachableR1.complete step6 "g1" h6
  exact ReachableR1.next step7 "g1" h7

/-- C6 (amended): in the first revision the invariant holds along the three
round commands — for every group reachable from freshly created groups by
recordPayment, completePayout and advanceRound, every round with
payoutCompleted == true has a truthy (non-null, non-empty) payoutMemberId
equal to payoutOrder[roundNumber - 1].  It is not an invariant of the full
engine-command set: the roster-edit branch of handleSaveGroup keeps completed
rounds while replacing payoutOrder, so a payout-order reorder on a reachable
played-out state leaves a completed round whose truthy recipient differs from
payoutOrder[roundNumber - 1]. -/
theorem C6_completed_round_recipient :
    (∀ gs, ReachableR1 gs → ∀ g ∈ gs, ∀ r ∈ g.rounds, r.payoutCompleted = true →
      jsFalsy r.payoutMemberId = false ∧
      r.payoutMemberId = idxGet g.payoutOrder (r.roundNumber - 1)) ∧
    (ReachableR1 step8 ∧
      ∃ g1 ∈ stepEdit, ∃ r ∈ g1.rounds,
        r.payoutCompleted = true ∧ jsFalsy r.payoutMemberId = false ∧
        r.payoutMemberId ≠ idxGet g1.payoutOrder (r.roundNumber - 1)) := by
  constructor
  · intro gs hreach g hgm r hrm hpc
    have hinv := invPayout_reachable hreach g hgm r hrm
    have hfalsy := hinv.2 hpc
    exact ⟨hfalsy, hinv.1 hfalsy⟩
  · exact ⟨reachable_step8, by decide⟩

/-- Witness instantiating C6 on the reachable played-out sample state. -/
theorem C6_completed_round_recipient_witness :
    jsFalsy rDone1.payoutMemberId = false ∧
    rDone1.payoutMemberId = idxGet gDone.payoutOrder (rDone1.roundNumber - 1) :=
  C6_completed_round_recipient.1 step8 reachable_step8 gDone (by decide) rDone1
    (by decide) (by decide)

/-- Counterexample to C6 as stated, in both revisions: one completePayout of
the second revision on a freshly created group yields a group with a
completed round whose payoutMemberId is null; and in the first revision a
payout-order reorder through handleSaveGroup, applied to the played-out state
step8 = [gDone] reached by round commands alone, yields a group whose
completed round 1 still has recipient m1 while payoutOrder[0] is now m2. -/
theorem C6_completed_round_counterexample :
    (IsFresh gAB ∧
      (R2.handleMarkPayoutComplete [gAB] "g1").map
          (fun g => g.rounds.map (fun r => (r.payoutCompleted, r.payoutMemberId))) =
        [[(true, none)]]) ∧
    (step8 = [gDone] ∧
      ∃ g1 ∈ stepEdit, ∃ r ∈ g1.rounds,
        r.payoutCompleted = true ∧ r.payoutMemberId = some "m1" ∧
        idxGet g1.payoutOrder (r.roundNumber - 1) = some "m2") :=
  ⟨⟨⟨rfl, rfl, rfl⟩, by decide⟩, by decide, by decide⟩


/-- A memberless group is permanently stuck: its rounds can never be paid,
assigned a recipient, or completed. -/
def EmptyStuck (g : Group) : Prop :=
  g.members = [] ∧ ∀ r ∈ g.rounds,
    r.payoutCompleted = false ∧ r.payments = [] ∧ jsFalsy r.payoutMemberId = true

/-- Arithmetic invariant behind the Completed status: a Completed group sits
exactly at currentRound = members.length, and currentRound never exceeds
members.length except in the stuck memberless case. -/
def InvCompleted (g : Group) : Prop :=
  (g.status = GroupStatus.Completed → g.currentRound = (g.members.length : Int)) ∧
  (g.currentRound ≤ (g.members.length : Int) ∨ EmptyStuck g)

/-- Fresh groups satisfy the Completed-status invariant. -/
theorem invCompleted_fresh {g : Group} (h : IsFresh g) : InvCompleted g := by
  constructor
  · intro hst
    rw [h.2.1] at hst
    simp at hst
  · by_cases hmem : g.members = []
    · right
      refine ⟨hmem, ?_⟩
      intro r hrm
      rw [h.2.2] at hrm
      simp only [List.mem_singleton] at hrm
      subst hrm
      refine ⟨rfl, ?_, rfl⟩
      rw [hmem]
      rfl
    · left
      rw [h.1]
      have hpos : 0 < g.members.length := List.length_pos.mpr hmem
      omega

/-- recordPayment's per-group core preserves the Completed-status
invariant. -/
theorem invCompleted_mark {g g1 : Group} {mid : String} {b : Bool}
    (hm : R1.markAsPaidGroup g mid = some (g1, b)) (hinv : InvCompleted g) :
    InvCompleted g1 := by
  have hfields := R1.markAsPaidGroup_fields hm
  constructor
  · intro hst
    rw [hfields.2.2.2.2] at hst
    rw [hfields.2.2.2.1, hfields.2.1]
    exact hinv.1 hst
  · rcases hinv.2 with hle | hstuck
    · left
      rw [hfields.2.2.2.1, hfields.2.1]
      exact hle
    · exfalso
      rcases R1.markAsPaidGroup_rounds hm with ⟨j, r0, _, hr0, _, hne, _⟩
      exact hne (hstuck.2 r0 (List.getElem?_mem hr0)).2.1

/-- completePayout's per-group core preserves the Completed-status
invariant. -/
theorem invCompleted_complete {g g1 : Group}
    (hm : R1.markPayoutCompleteGroup g = R1.PayoutStepResult.done g1)
    (hinv : InvCompleted g) : InvCompleted g1 := by
  rcases R1.markPayoutCompleteGroup_done hm with ⟨j, r0, hr0, _, hfalsy, hEq⟩
  subst hEq
  constructor
  · intro hst
    simp at hst
  · rcases hinv.2 with hle | hstuck
    · left
      exact hle
    · exfalso
      have hstk := (hstuck.2 r0 (List.getElem?_mem hr0)).2.2
      rw [hstk] at hfalsy
      exact Bool.noConfusion hfalsy

/-- advanceRound's per-group core preserves the Completed-status
invariant. -/
theorem invCompleted_next {g g1 : Group}
    (hm : R1.startNextRoundGroup g = R1.NextRoundResult.advanced g1 ∨
      R1.startNextRoundGroup g = R1.NextRoundResult.completed g1)
    (hinv : InvCompleted g) : InvCompleted g1 := by
  rcases hm with hm | hm
  · rcases R1.startNextRoundGroup_advanced hm with ⟨_, hlt, hEq⟩
    subst hEq
    constructor
    · intro hst
      exfalso
      have := hinv.1 hst
      omega
    · left
      show g.currentRound + 1 ≤ (g.members.length : Int)
      omega
  · rcases R1.startNextRoundGroup_completed hm with ⟨⟨rr, hfind, hpcr⟩, hge, hEq⟩
    subst hEq
    have heq : g.currentRound = (g.members.length : Int) := by
      rcases hinv.2 with hle | hstuck
      · omega
      · exfalso
        have hstk := (hstuck.2 rr (List.mem_of_find?_eq_some hfind)).1
        rw [hstk] at hpcr
        exact Bool.noConfusion hpcr
    refine ⟨fun _ => heq, Or.inl ?_⟩
    show g.currentRound ≤ (g.members.length : Int)
    omega

/-- Every group of a reachable state satisfies the Completed-status
invariant. -/
theorem invCompleted_reachable {gs : List Group} (h : ReachableR1 gs) :
    ∀ g ∈ gs, InvCompleted g := by
  induction h with
  | fresh gs hf =>
    intro g hgm
    exact invCompleted_fresh (hf g hgm)
  | mark gs gid mid _ ih =>
    intro g1 hg1m
    rcases R1.handleMarkAsPaid_mem hg1m with hin | ⟨g, hgm, b, hm⟩
    · exact ih g1 hin
    · exact invCompleted_mark hm (ih g hgm)
  | complete gs gid _ ih =>
    intro g1 hg1m
    rcases R1.handleMarkPayoutComplete_mem hg1m with hin | ⟨g, hgm, hm⟩
    · exact ih g1 hin
    · exact invCompleted_complete hm (ih g hgm)
  | next gs gid _ ih =>
    intro g1 hg1m
    rcases R1.handleStartNextRound_mem hg1m with hin | ⟨g, hgm, hm⟩
    · exact ih g1 hin
    · exact invCompleted_next hm (ih g hgm)

/-- C8 (amended): in the first revision, for every group reachable from
freshly created groups via recordPayment/completePayout/advanceRound, status
== 'Completed' implies currentRound == members.length — the final
advanceRound never pushes currentRound past members.length.  (The status is
also not terminal; see the completePayout regression.) -/
theorem C8_completed_status_arithmetic :
    ∀ gs, ReachableR1 gs → ∀ g ∈ gs, g.status = GroupStatus.Completed →
      g.currentRound = (g.members.length : Int) := by
  intro gs hreach g hgm hst
  exact (invCompleted_reachable hreach g hgm).1 hst

/-- Witness instantiating C8 on the reachable played-out sample state. -/
theorem C8_completed_status_arithmetic_witness :
    gDone.currentRound = (gDone.members.length : Int) := by
  have h0 : ReachableR1 [gAB] := ReachableR1.fresh [gAB] (by
    intro g hgm
    simp only [List.mem_singleton] at hgm
    subst hgm
    exact ⟨rfl, rfl, rfl⟩)
  have h1 : ReachableR1 step1 := ReachableR1.mark [gAB] "g1" "m1" h0
  have h2 : ReachableR1 step2 := ReachableR1.mark step1 "g1" "m2" h1
  have h3 : ReachableR1 step3 := ReachableR1.complete step2 "g1" h2
  have h4 : ReachableR1 step4 := ReachableR1.next step3 "g1" h3
  have h5 : ReachableR1 step5 := ReachableR1.mark step4 "g1" "m1" h4
  have h6 : ReachableR1 step6 := ReachableR1.mark step5 "g1" "m2" h5
  have h7 : ReachableR1 step7 := ReachableR1.complete step6 "g1" h6
  have h8 : ReachableR1 step8 := ReachableR1.next step7 "g1" h7
  exact C8_completed_status_arithmetic step8 h8 gDone (by decide) (by decide)

/-- Counterexample to C8 as stated: the Completed end state of a full run has
currentRound equal to members.length, not greater, and it is not terminal —
completePayout maps it back to Active. -/
theorem C8_completed_status_counterexample :
    step8 = [gDone] ∧ gDone.status = GroupStatus.Completed ∧
    ¬ (gDone.members.length : Int) < gDone.currentRound ∧
    (R1.handleMarkPayoutComplete [gDone] "g1").1.map Group.status =
      [GroupStatus.Active] := by
  decide


end Kutu
